import Mathlib

/-!
Shallow embedding of the concurrent OneNote fetch-and-assemble pipeline of
`data-extraction-service` (packages `pkg/msgraph` and `internal/types`),
together with theorems settling the specification claims about it.

Conventions of the embedding:
* Go `*string` / `*time.Time` pointers become `Option String` / `Option Nat`
  (`time.Time` values are abstracted to `Nat` instants).
* Go `[]byte` payloads that the core only ever converts with `string(...)`
  are modelled as `String`; the UTF-8 bytes of a string are recovered
  explicitly where the code hashes them.
* Go maps become association lists (`List (String × V)`) with last-write-wins
  insertion (`mapInsert`) and first-match lookup (`mapLookup`); iteration over
  a map is iteration over the association list.
* Go errors become the inductive `GoErr`; `error` results are `Option GoErr`
  fields and fallible functions return `Except GoErr _`.
* The Microsoft Graph network is an oracle `GraphAPI`: one response per
  operation (the delegated-identity and application-identity endpoint
  variants of an operation share the oracle, since they differ only in URL).
* Goroutine scheduling is quantified: a distribution function assigns each
  worker its sub-queue of jobs (channel semantics let a worker pull only jobs
  that were sent), an arrival function chooses the order in which the single
  collector goroutine sees the results, and each worker carries a
  `Nat → Bool` predicate telling whether `ctx.Done()` is observed at its
  k-th per-job cancellation check.
-/

namespace DataExtraction

/-- Go's zero-value pointer dereference helper `getStringValue` from
`pkg/msgraph/onenote.go`: a nil `*string` reads as `""`. -/
def getStringValue : Option String → String
  | none => ""
  | some s => s

/-- `getTimeValue` from `pkg/msgraph/onenote.go`: a nil `*time.Time` reads as
`time.Now()`, which the embedding threads through as the `now` instant. -/
def getTimeValue (ptr : Option Nat) (now : Nat) : Nat :=
  match ptr with
  | none => now
  | some t => t

/-- Association-list lookup, modelling Go map indexing `m[k]`. -/
def mapLookup {V : Type} : List (String × V) → String → Option V
  | [], _ => none
  | (k, v) :: rest, key => if k = key then some v else mapLookup rest key

/-- Association-list insertion, modelling Go map assignment `m[k] = v`
(replaces an existing binding, otherwise appends). -/
def mapInsert {V : Type} : List (String × V) → String → V → List (String × V)
  | [], k, v => [(k, v)]
  | (k0, v0) :: rest, k, v =>
    if k0 = k then (k0, v) :: rest else (k0, v0) :: mapInsert rest k v

/-- Key membership in a modelled Go map (`_, ok := m[k]`). -/
def memKey {V : Type} (m : List (String × V)) (k : String) : Bool :=
  (mapLookup m k).isSome

/-- Error values produced by the embedded code paths (Go `error`). -/
inductive GoErr : Type
  /-- `ctx.Err()` after cancellation. -/
  | ctxCanceled : GoErr
  /-- An error returned by a Graph API call, abstracted to its message. -/
  | api (msg : String) : GoErr
  /-- `fmt.Errorf("user ID is required for application authentication flow")`. -/
  | userIDRequired : GoErr
  /-- `fmt.Errorf("failed to fetch notebooks: %w", err)`. -/
  | fetchNotebooksFailed (e : GoErr) : GoErr
  /-- `fmt.Errorf("section %s has no ID", sectionName)`. -/
  | noSectionID (sectionName : String) : GoErr
  /-- `fmt.Errorf("failed to fetch pages for section %s: %w", sectionName, err)`. -/
  | fetchPagesFailed (sectionName : String) (e : GoErr) : GoErr
  /-- `fmt.Errorf("failed to fetch content for page %s: %w", pageTitle, err)`. -/
  | fetchContentFailed (pageTitle : String) (e : GoErr) : GoErr
  /-- `fmt.Errorf("failed to convert content to JSON: %w", err)`. -/
  | contentToJSONFailed (e : GoErr) : GoErr
  /-- `fmt.Errorf("failed to fetch OneNote data: %w", err)`. -/
  | fetchOneNoteDataFailed (e : GoErr) : GoErr
deriving DecidableEq, Repr

/-- A Go `interface{}` value as stored in the `map[string]interface{}`
payloads the core inspects (only the string case is type-asserted by the
core; the other constructors carry opaque collaborator data). -/
inductive GoValue : Type
  | str (s : String) : GoValue
  | int (n : Int) : GoValue
  | bool (b : Bool) : GoValue
  | null : GoValue
deriving DecidableEq, Repr

/-- `msgraphmodels.Notebookable`: the fields the core reads. -/
structure Notebook where
  id : Option String
  displayName : Option String
deriving DecidableEq, Repr

/-- `msgraphmodels.OnenoteSectionable`: the fields the core reads. -/
structure OnenoteSection where
  id : Option String
  displayName : Option String
  parentNotebook : Option Notebook
deriving DecidableEq, Repr

/-- `msgraphmodels.OnenotePageable`: the fields the core reads. -/
structure Page where
  id : Option String
  title : Option String
  createdDateTime : Option Nat
deriving DecidableEq, Repr

/-- `OneNoteRawData` from `pkg/msgraph/onenote.go`. -/
structure OneNoteRawData where
  Notebooks : List Notebook
  Sections : List (String × List OnenoteSection)
  Pages : List (String × List Page)
  Content : List (String × String)
deriving DecidableEq, Repr

/-- `SectionJob` from `pkg/msgraph/onenote.go`. -/
structure SectionJob where
  NotebookID : String
  Section : OnenoteSection
  SectionIndex : Nat
  TotalSections : Nat
deriving DecidableEq, Repr

/-- `SectionResult` from `pkg/msgraph/onenote.go`. -/
structure SectionResult where
  SectionID : String
  Pages : List Page
  Error : Option GoErr
deriving DecidableEq, Repr

/-- `ContentJob` from `pkg/msgraph/onenote.go`. -/
structure ContentJob where
  PageID : String
  PageTitle : String
  PageIndex : Nat
  TotalPages : Nat
deriving DecidableEq, Repr

/-- `ContentResult` from `pkg/msgraph/onenote.go`. -/
structure ContentResult where
  PageID : String
  Content : String
  Error : Option GoErr
deriving DecidableEq, Repr

/-- `ConcurrencyConfig` from `pkg/msgraph/api.go` (Go `int` fields). -/
structure ConcurrencyConfig where
  MaxSectionWorkers : Int
  MaxContentWorkers : Int
deriving DecidableEq, Repr

/-- `DefaultConcurrencyConfig` from `pkg/msgraph/api.go`. -/
def DefaultConcurrencyConfig : ConcurrencyConfig :=
  { MaxSectionWorkers := 5, MaxContentWorkers := 10 }

/-- The identity-mode state of `msgraph.Client` that the OneNote fetch
consults: `IsDelegatedAuth()` and `GetUserID()`. -/
structure ClientCfg where
  isDelegatedAuth : Bool
  userID : String
deriving DecidableEq, Repr

/-!
SHA-256 (`crypto/sha256.Sum256`) over byte sequences, and the lowercase hex
rendering `fmt.Sprintf("%x", hash)`, embedded as executable functions on
`Nat`-valued bytes and 32-bit words.
-/

/-- Truncation to a 32-bit word. -/
def w32 (n : Nat) : Nat := n % 4294967296

/-- 32-bit right rotation. -/
def rotr32 (x n : Nat) : Nat := w32 ((x >>> n) ||| (x <<< (32 - n)))

/-- Bitwise complement within 32 bits. -/
def not32 (x : Nat) : Nat := x ^^^ 4294967295

/-- SHA-256 `Ch` function. -/
def shaCh (x y z : Nat) : Nat := (x &&& y) ^^^ (not32 x &&& z)

/-- SHA-256 `Maj` function. -/
def shaMaj (x y z : Nat) : Nat := (x &&& y) ^^^ (x &&& z) ^^^ (y &&& z)

/-- SHA-256 big sigma 0. -/
def bsig0 (x : Nat) : Nat := rotr32 x 2 ^^^ rotr32 x 13 ^^^ rotr32 x 22

/-- SHA-256 big sigma 1. -/
def bsig1 (x : Nat) : Nat := rotr32 x 6 ^^^ rotr32 x 11 ^^^ rotr32 x 25

/-- SHA-256 small sigma 0. -/
def ssig0 (x : Nat) : Nat := rotr32 x 7 ^^^ rotr32 x 18 ^^^ (x >>> 3)

/-- SHA-256 small sigma 1. -/
def ssig1 (x : Nat) : Nat := rotr32 x 17 ^^^ rotr32 x 19 ^^^ (x >>> 10)

/-- The 64 SHA-256 round constants (FIPS 180-4), in decimal. -/
def shaK : List Nat :=
  [1116352408, 1899447441, 3049323471, 3921009573, 961987163,
   1508970993, 2453635748, 2870763221, 3624381080, 310598401,
   607225278, 1426881987, 1925078388, 2162078206, 2614888103,
   3248222580, 3835390401, 4022224774, 264347078, 604807628,
   770255983, 1249150122, 1555081692, 1996064986, 2554220882,
   2821834349, 2952996808, 3210313671, 3336571891, 3584528711,
   113926993, 338241895, 666307205, 773529912, 1294757372,
   1396182291, 1695183700, 1986661051, 2177026350, 2456956037,
   2730485921, 2820302411, 3259730800, 3345764771, 3516065817,
   3600352804, 4094571909, 275423344, 430227734, 506948616,
   659060556, 883997877, 958139571, 1322822218, 1537002063,
   1747873779, 1955562222, 2024104815, 2227730452, 2361852424,
   2428436474, 2756734187, 3204031479, 3329325298]

/-- The SHA-256 initial hash value (FIPS 180-4), in decimal. -/
def shaH0 : List Nat :=
  [1779033703, 3144134277, 1013904242, 2773480762,
   1359893119, 2600822924, 528734635, 1541459225]

/-- Extend the 16 words of a block to the 64-entry message schedule. -/
def shaSchedule (ws : List Nat) : List Nat :=
  (List.range 48).foldl
    (fun acc i =>
      acc ++ [w32 (acc.getD i 0 + ssig0 (acc.getD (i + 1) 0) +
                   acc.getD (i + 9) 0 + ssig1 (acc.getD (i + 14) 0))])
    ws

/-- One SHA-256 compression round on the eight-word working state. -/
def shaRound (st : List Nat) (kw : Nat × Nat) : List Nat :=
  match st with
  | [a, b, c, d, e, f, g, h] =>
    let t1 := w32 (h + bsig1 e + shaCh e f g + kw.1 + kw.2)
    let t2 := w32 (bsig0 a + shaMaj a b c)
    [w32 (t1 + t2), a, b, c, w32 (d + t1), e, f, g]
  | other => other

/-- Process one 16-word block against the running hash value. -/
def shaBlock (h : List Nat) (block : List Nat) : List Nat :=
  let st := (shaK.zip (shaSchedule block)).foldl shaRound h
  List.zipWith (fun a b => w32 (a + b)) h st

/-- Big-endian packing of bytes into 32-bit words. -/
def bytesToWords : List Nat → List Nat
  | b0 :: b1 :: b2 :: b3 :: rest =>
    ((b0 <<< 24) ||| (b1 <<< 16) ||| (b2 <<< 8) ||| b3) :: bytesToWords rest
  | _ => []

/-- Accumulate words into blocks of 16 (`cur` holds the current block in
reverse, `n` its size); structurally recursive so the kernel can reduce it. -/
def chunk16 : List Nat → List Nat → Nat → List (List Nat)
  | [], cur, _ => if cur.isEmpty then [] else [cur.reverse]
  | x :: xs, cur, n =>
    if n = 15 then (cur.reverse ++ [x]) :: chunk16 xs [] 0
    else chunk16 xs (x :: cur) (n + 1)

/-- Split a word list into blocks of 16. -/
def toBlocks (ws : List Nat) : List (List Nat) :=
  chunk16 ws [] 0

/-- SHA-256 padding: append `0x80`, zeros, and the 64-bit big-endian bit
length so the total is a multiple of 64 bytes. -/
def shaPad (msg : List Nat) : List Nat :=
  let l := msg.length
  let zeros := (55 + 64 - l % 64) % 64
  msg ++ [0x80] ++ List.replicate zeros 0 ++
    [56, 48, 40, 32, 24, 16, 8, 0].map (fun s => (8 * l) >>> s % 256)

/-- Big-endian unpacking of one 32-bit word into four bytes. -/
def wordToBytes (w : Nat) : List Nat :=
  [w >>> 24 % 256, w >>> 16 % 256, w >>> 8 % 256, w % 256]

/-- The SHA-256 digest (32 bytes) of a byte sequence. -/
def sha256Sum (msg : List Nat) : List Nat :=
  (((toBlocks (bytesToWords (shaPad msg))).foldl shaBlock shaH0).map
    wordToBytes).flatten

/-- One lowercase hex digit. -/
def hexDigit (n : Nat) : Char :=
  "0123456789abcdef".toList.getD n '0'

/-- `%x` rendering of a byte sequence: two lowercase hex digits per byte. -/
def bytesToHex (bs : List Nat) : String :=
  String.mk (bs.map (fun b => [hexDigit (b / 16 % 16), hexDigit (b % 16)])).flatten

/-- UTF-8 encoding of one character, as Go's `[]byte(string)` produces. -/
def utf8EncodeCharBytes (c : Char) : List Nat :=
  let n := c.toNat
  if n < 0x80 then [n]
  else if n < 0x800 then
    [0xC0 ||| (n >>> 6), 0x80 ||| (n &&& 0x3F)]
  else if n < 0x10000 then
    [0xE0 ||| (n >>> 12), 0x80 ||| ((n >>> 6) &&& 0x3F), 0x80 ||| (n &&& 0x3F)]
  else
    [0xF0 ||| (n >>> 18), 0x80 ||| ((n >>> 12) &&& 0x3F),
     0x80 ||| ((n >>> 6) &&& 0x3F), 0x80 ||| (n &&& 0x3F)]

/-- The UTF-8 bytes of a string (Go's `[]byte(s)`). -/
def utf8Bytes (s : String) : List Nat :=
  s.data.flatMap utf8EncodeCharBytes

/-- `fmt.Sprintf("sha256:%x", sha256.Sum256([]byte(s)))`. -/
def sha256Tag (s : String) : String :=
  "sha256:" ++ bytesToHex (sha256Sum (utf8Bytes s))

/-- Oracle for the four Graph operations the pipeline issues.  A `none`
success models a nil response object or a nil `GetValue()` slice, which the
Go code checks separately from the error. -/
structure GraphAPI where
  notebooksGet : Except GoErr (Option (List Notebook))
  sectionsGet : Except GoErr (Option (List OnenoteSection))
  pagesGet : String → Except GoErr (Option (List Page))
  contentGet : String → Except GoErr String

/-- `types.Document` from `internal/types` (found concatenated into
`src/Makefile`). -/
structure Document where
  ID : String
  Source : String
  /-- The Go field is named `Type`, which is a Lean keyword. -/
  Type' : String
  Title : String
  Location : String
  CreatedAt : Nat
  FetchedAt : Nat
  VersionHash : String
  Language : String
  TextChunkingStrategy : String
  Content : String
  Metadata : List (String × GoValue)
deriving DecidableEq, Repr

/-- `types.DocumentCollection`. -/
structure DocumentCollection where
  Source : String
  FetchedAt : Nat
  SchemaVersion : String
  Documents : List Document
deriving DecidableEq, Repr

/-- `types.NewDocumentCollection`; `time.Now()` is the `now` parameter. -/
def NewDocumentCollection (source : String) (now : Nat) : DocumentCollection :=
  { Source := source
    FetchedAt := now
    SchemaVersion := "v1"
    Documents := [] }

/-- `types.DocumentCollection.AddDocument`. -/
def AddDocument (dc : DocumentCollection) (doc : Document) : DocumentCollection :=
  { dc with Documents := dc.Documents ++ [doc] }

/-- The per-format detectors and converters that `utils.BytesToJSON`
dispatches to.  The spec places them outside the core ("the per-format text
converters ... are external collaborators"), so they are collaborator
parameters here; each returns the `map[string]interface{}` payload (or an
error) of the corresponding Go function. -/
structure Converters where
  isHTML : String → Bool
  isXML : String → Bool
  isMarkdown : String → Bool
  isJSON : String → Bool
  oneNoteHTMLToJSON : String → Except GoErr (List (String × GoValue))
  xmlToJSON : String → Except GoErr (List (String × GoValue))
  markdownToJSON : String → Except GoErr (List (String × GoValue))
  parseExistingJSON : String → Except GoErr (List (String × GoValue))
  textToJSON : String → Except GoErr (List (String × GoValue))

/-- `utils.BytesToJSON` from `internal/utils/content_parser.go`: the empty
input short-circuit and the format-detection dispatch (`string(data)` is
the identity under the byte-payloads-as-strings convention). -/
def BytesToJSON (conv : Converters) (data : String) : Except GoErr (List (String × GoValue)) :=
  if data = "" then .ok [("content", .str ""), ("type", .str "empty")]
  else if conv.isHTML data then conv.oneNoteHTMLToJSON data
  else if conv.isXML data then conv.xmlToJSON data
  else if conv.isMarkdown data then conv.markdownToJSON data
  else if conv.isJSON data then conv.parseExistingJSON data
  else conv.textToJSON data

/-- The Go type assertion `contentJSON["content"].(string)` with `""` as the
zero value when the assertion fails or the key is absent. -/
def jsonContentString (m : List (String × GoValue)) : String :=
  match mapLookup m "content" with
  | some (.str s) => s
  | _ => ""

/-- A metadata read `contentJSON[k]`: an absent key reads as Go `nil`. -/
def jsonField (m : List (String × GoValue)) (k : String) : GoValue :=
  match mapLookup m k with
  | some v => v
  | none => .null

/-- `processPageContent` from `pkg/msgraph/onenote.go`, lines 123-173. -/
def processPageContent (conv : Converters) (now : Nat) (page : Page)
    (notebook : Notebook) (sec : OnenoteSection) (content : String) :
    Except GoErr Document :=
  match BytesToJSON conv content with
  | .error e => .error (.contentToJSONFailed e)
  | .ok contentJSON =>
    let textContent := jsonContentString contentJSON
    let location := "OneNote/" ++ getStringValue notebook.displayName ++ "/" ++
      getStringValue sec.displayName
    let versionHash := sha256Tag textContent
    .ok
      { ID := getStringValue page.id
        Source := "onenote"
        Type' := "page"
        Title := getStringValue page.title
        Location := location
        CreatedAt := getTimeValue page.createdDateTime now
        FetchedAt := now
        VersionHash := versionHash
        Language := "en"
        TextChunkingStrategy := "page_based"
        Content := textContent
        Metadata :=
          [("notebook_id", .str (getStringValue notebook.id)),
           ("notebook_name", .str (getStringValue notebook.displayName)),
           ("section_id", .str (getStringValue sec.id)),
           ("section_name", .str (getStringValue sec.displayName)),
           ("page_id", .str (getStringValue page.id)),
           ("content_format", .str "html"),
           ("has_images", jsonField contentJSON "has_images"),
           ("word_count", jsonField contentJSON "word_count"),
           ("character_count", jsonField contentJSON "character_count")] }

/-- The innermost body of the assembly loop in `combineOneNoteData`
(`pkg/msgraph/onenote.go`, lines 98-115): look up the page's content (skip
with `continue` if absent), decode it (skip on error), append the document. -/
def assemblePage (conv : Converters) (now : Nat) (raw : OneNoteRawData)
    (notebook : Notebook) (sec : OnenoteSection)
    (acc : DocumentCollection) (page : Page) : DocumentCollection :=
  match mapLookup raw.Content (getStringValue page.id) with
  | none => acc
  | some content =>
    match processPageContent conv now page notebook sec content with
    | .error _ => acc
    | .ok doc => AddDocument acc doc

/-- The per-section body of the assembly loop (lines 90-96): look up the
section's pages (skip the section if absent) and walk them. -/
def assembleSection (conv : Converters) (now : Nat) (raw : OneNoteRawData)
    (notebook : Notebook) (acc : DocumentCollection)
    (sec : OnenoteSection) : DocumentCollection :=
  match mapLookup raw.Pages (getStringValue sec.id) with
  | none => acc
  | some pages => pages.foldl (assemblePage conv now raw notebook sec) acc

/-- The per-notebook body of the assembly loop (lines 82-88): look up the
notebook's sections (skip the notebook if absent) and walk them. -/
def assembleNotebook (conv : Converters) (now : Nat) (raw : OneNoteRawData)
    (coll : DocumentCollection) (notebook : Notebook) : DocumentCollection :=
  match mapLookup raw.Sections (getStringValue notebook.id) with
  | none => coll
  | some sections => sections.foldl (assembleSection conv now raw notebook) coll

/-- The full assembly loop of `combineOneNoteData` over a raw snapshot. -/
def combineLoop (conv : Converters) (now : Nat) (raw : OneNoteRawData)
    (coll : DocumentCollection) : DocumentCollection :=
  raw.Notebooks.foldl (assembleNotebook conv now raw) coll

/-!
Worker pools (`sectionWorker` / `contentWorker`, `pkg/msgraph/onenote.go`
lines 432-525).  A worker is given the sub-queue of jobs it will pull from
the shared channel and a predicate `done k` telling whether the `select` on
`ctx.Done()` fires at its k-th per-job check.  Besides the results it sends,
the embedding records which jobs reached a network call and how many jobs
the worker pulled, so that cancellation claims can be stated.
-/

/-- What one worker goroutine did: the results it sent, the jobs for which
it started a network call, and the number of jobs it pulled from the queue. -/
structure WorkerRun (R J : Type) where
  results : List R
  calls : List J
  pulled : Nat
deriving DecidableEq, Repr

/-- The result `SectionResult{Error: ctx.Err()}` a section worker sends when
it observes cancellation (zero values elsewhere). -/
def cancelSectionResult : SectionResult :=
  { SectionID := "", Pages := [], Error := some .ctxCanceled }

/-- The result `ContentResult{Error: ctx.Err()}` a content worker sends when
it observes cancellation. -/
def cancelContentResult : ContentResult :=
  { PageID := "", Content := "", Error := some .ctxCanceled }

/-- The per-job body of `sectionWorker` (lines 443-483): an id-less section
yields an error result without a call; otherwise the page-list call is
issued (delegated or application endpoint, same oracle) and its outcome is
wrapped. -/
def processSectionJob (api : GraphAPI) (job : SectionJob) : SectionResult :=
  let sectionID := getStringValue job.Section.id
  let sectionName := getStringValue job.Section.displayName
  if sectionID == "" then
    { SectionID := sectionID, Pages := [], Error := some (.noSectionID sectionName) }
  else
    match api.pagesGet sectionID with
    | .error e =>
      { SectionID := sectionID, Pages := [],
        Error := some (.fetchPagesFailed sectionName e) }
    | .ok v =>
      { SectionID := sectionID, Pages := v.getD [], Error := none }

/-- Whether a section job reaches the page-list network call. -/
def sectionJobCalls (job : SectionJob) : Bool :=
  !(getStringValue job.Section.id == "")

/-- `sectionWorker`: pull jobs from the assigned queue; before starting each
job check cancellation (emit one `ctx.Err()` result and stop if observed);
otherwise process the job and continue.  `k` counts this worker's
cancellation checks. -/
def sectionWorker (api : GraphAPI) (done : Nat → Bool) :
    Nat → List SectionJob → WorkerRun SectionResult SectionJob
  | _, [] => { results := [], calls := [], pulled := 0 }
  | k, job :: rest =>
    if done k then
      { results := [cancelSectionResult], calls := [], pulled := 1 }
    else
      let tail := sectionWorker api done (k + 1) rest
      { results := processSectionJob api job :: tail.results
        calls := if sectionJobCalls job then job :: tail.calls else tail.calls
        pulled := tail.pulled + 1 }

/-- The per-job body of `contentWorker` (lines 499-523): every job issues
the content call (jobs were built only for non-empty page ids). -/
def processContentJob (api : GraphAPI) (job : ContentJob) : ContentResult :=
  match api.contentGet job.PageID with
  | .error e =>
    { PageID := job.PageID, Content := "",
      Error := some (.fetchContentFailed job.PageTitle e) }
  | .ok content =>
    { PageID := job.PageID, Content := content, Error := none }

/-- `contentWorker`, shaped exactly like `sectionWorker`. -/
def contentWorker (api : GraphAPI) (done : Nat → Bool) :
    Nat → List ContentJob → WorkerRun ContentResult ContentJob
  | _, [] => { results := [], calls := [], pulled := 0 }
  | k, job :: rest =>
    if done k then
      { results := [cancelContentResult], calls := [], pulled := 1 }
    else
      let tail := contentWorker api done (k + 1) rest
      { results := processContentJob api job :: tail.results
        calls := job :: tail.calls
        pulled := tail.pulled + 1 }

/-- A pool schedule: one entry per spawned worker, carrying the worker's
cancellation observations and the jobs it pulls from the shared channel. -/
abbrev PoolSchedule (J : Type) : Type := List ((Nat → Bool) × List J)

/-- All results sent onto the section result channel by a pool of workers. -/
def runSectionPool (api : GraphAPI) (ws : PoolSchedule SectionJob) :
    List SectionResult :=
  (ws.map fun w => (sectionWorker api w.1 0 w.2).results).flatten

/-- All results sent onto the content result channel by a pool of workers. -/
def runContentPool (api : GraphAPI) (ws : PoolSchedule ContentJob) :
    List ContentResult :=
  (ws.map fun w => (contentWorker api w.1 0 w.2).results).flatten

/-- The number of workers the spawn loop `for i := 0; i < n; i++` starts for
a Go `int` configuration value `n`. -/
def spawnedWorkers (n : Int) : Nat := n.toNat

/-- Channel realism for a distribution of jobs to workers: the pool spawns
exactly `spawnedWorkers n` workers and a worker can pull only jobs that were
sent on the channel. -/
def ValidDist {J : Type} (n : Int) (jobs : List J) (ws : PoolSchedule J) : Prop :=
  ws.length = spawnedWorkers n ∧ ∀ w ∈ ws, ∀ j ∈ w.2, j ∈ jobs

/-- A drained distribution: with the queue closed after sending, every sent
job is pulled by exactly one worker. -/
def DrainedDist {J : Type} (jobs : List J) (ws : PoolSchedule J) : Prop :=
  List.Perm (ws.map Prod.snd).flatten jobs

/-- No worker in the pool ever observes cancellation. -/
def NoCancel {J : Type} (ws : PoolSchedule J) : Prop :=
  ∀ w ∈ ws, ∀ k, w.1 k = false

/-!
Fetch orchestrator (`fetchOneNoteRawDataConcurrentWithConfig`,
`pkg/msgraph/onenote.go` lines 186-429), decomposed into its sequential
stage 1 (notebooks, sections, grouping, job building — lines 199-281), the
section-result merge, the content-job derivation, and the content-result
merge.  The scheduling nondeterminism enters as distribution functions
(`sdist`/`cdist`) and result arrival orders (`sarr`/`carr`).
-/

/-- The empty `OneNoteRawData` the function allocates up front. -/
def emptyRaw : OneNoteRawData :=
  { Notebooks := [], Sections := [], Pages := [], Content := [] }

/-- Grouping of the flat section list by parent notebook id (lines 247-258):
sections with no parent notebook or an empty parent id are dropped. -/
def groupSections (secs : List OnenoteSection) :
    List (String × List OnenoteSection) :=
  secs.foldl
    (fun m sec =>
      match sec.parentNotebook with
      | none => m
      | some pn =>
        let nid := getStringValue pn.id
        if nid == "" then m
        else mapInsert m nid ((mapLookup m nid).getD [] ++ [sec]))
    []

/-- The inner loop of section-job building for one notebook (lines 268-275):
`SectionIndex` is the 1-based position within the notebook. -/
def sectionJobsCore (nid : String) (total : Nat) :
    List OnenoteSection → Nat → List SectionJob
  | [], _ => []
  | s :: rest, i =>
    { NotebookID := nid, Section := s, SectionIndex := i + 1,
      TotalSections := total } :: sectionJobsCore nid total rest (i + 1)

/-- Section-job building over the grouped map (lines 266-276). -/
def sectionJobsOf (grouped : List (String × List OnenoteSection)) :
    List SectionJob :=
  (grouped.map fun kv => sectionJobsCore kv.1 kv.2.length kv.2 0).flatten

/-- Outcome of the sequential stage 1 of the orchestrator. -/
inductive Stage1Out : Type
  /-- A hard error returned to the caller. -/
  | fatal (e : GoErr) : Stage1Out
  /-- An early `return rawData, nil` before any worker pool runs. -/
  | early (raw : OneNoteRawData) : Stage1Out
  /-- Continue into the worker-pool stages with these notebooks, grouped
  sections, and section jobs. -/
  | proceed (nbs : List Notebook) (grouped : List (String × List OnenoteSection))
      (jobs : List SectionJob) : Stage1Out
deriving Repr

/-- Stage 1 after the notebook response is in hand (lines 214-281). -/
def stage1AfterNotebooks (api : GraphAPI)
    (nbsResp : Except GoErr (Option (List Notebook))) : Stage1Out :=
  match nbsResp with
  | .error e => .fatal (.fetchNotebooksFailed e)
  | .ok none => .early emptyRaw
  | .ok (some nbs) =>
    match api.sectionsGet with
    | .error _ => .early { emptyRaw with Notebooks := nbs }
    | .ok none => .early { emptyRaw with Notebooks := nbs }
    | .ok (some secs) =>
      let grouped := groupSections secs
      let jobs := sectionJobsOf grouped
      if jobs.isEmpty then
        .early { Notebooks := nbs, Sections := grouped, Pages := [], Content := [] }
      else .proceed nbs grouped jobs

/-- Stage 1 (lines 199-281): the identity-mode branch picks the endpoint;
in application mode an empty target user id aborts before the call. -/
def stage1 (c : ClientCfg) (api : GraphAPI) : Stage1Out :=
  if c.isDelegatedAuth then stage1AfterNotebooks api api.notebooksGet
  else if c.userID == "" then .fatal .userIDRequired
  else stage1AfterNotebooks api api.notebooksGet

/-- Accumulator of the section-result collection loop (lines 307-322). -/
structure SectionCollect where
  pages : List (String × List Page)
  errors : List GoErr
  totalPages : Nat
deriving Repr

/-- The section-result collection loop: an error result is appended to the
error list and skipped; a success result writes `Pages[SectionID]` and adds
to the running page count. -/
def collectSectionResults : List SectionResult → SectionCollect → SectionCollect
  | [], acc => acc
  | r :: rest, acc =>
    match r.Error with
    | some e =>
      collectSectionResults rest { acc with errors := acc.errors ++ [e] }
    | none =>
      collectSectionResults rest
        { acc with
          pages := mapInsert acc.pages r.SectionID r.Pages
          totalPages := acc.totalPages + r.Pages.length }

/-- The initial accumulator: `rawData.Pages` is still the empty map. -/
def emptySectionCollect : SectionCollect :=
  { pages := [], errors := [], totalPages := 0 }

/-- The inner page loop of content-job building (lines 333-347): pages with
an empty id are skipped; `PageIndex` is a running 1-based counter. -/
def contentJobsCore (totalPages : Nat) : List Page → Nat → List ContentJob
  | [], _ => []
  | p :: rest, idx =>
    if getStringValue p.id == "" then contentJobsCore totalPages rest idx
    else
      { PageID := getStringValue p.id, PageTitle := getStringValue p.title,
        PageIndex := idx + 1, TotalPages := totalPages } ::
        contentJobsCore totalPages rest (idx + 1)

/-- Content-job building over the merged `Pages` map (lines 330-348). -/
def contentJobsOf (pagesMap : List (String × List Page)) (totalPages : Nat) :
    List ContentJob :=
  contentJobsCore totalPages (pagesMap.map Prod.snd).flatten 0

/-- The content-result collection loop (lines 381-393): errors are skipped,
successes write `Content[PageID]`. -/
def collectContentResults : List ContentResult → List (String × String) →
    List (String × String)
  | [], m => m
  | r :: rest, m =>
    match r.Error with
    | some _ => collectContentResults rest m
    | none => collectContentResults rest (mapInsert m r.PageID r.Content)

/-- The worker-pool stages (lines 283-428), given stage 1's outputs and the
collected section results: merge them, derive content jobs, run the content
pool unless there are none, and assemble the final snapshot. -/
def stage2 (api : GraphAPI)
    (cdist : List ContentJob → PoolSchedule ContentJob)
    (carr : List ContentResult → List ContentResult)
    (nbs : List Notebook) (grouped : List (String × List OnenoteSection))
    (sres : List SectionResult) : OneNoteRawData :=
  let col := collectSectionResults sres emptySectionCollect
  let cjobs := contentJobsOf col.pages col.totalPages
  if cjobs.isEmpty then
    { Notebooks := nbs, Sections := grouped, Pages := col.pages, Content := [] }
  else
    let cres := carr (runContentPool api (cdist cjobs))
    { Notebooks := nbs, Sections := grouped, Pages := col.pages,
      Content := collectContentResults cres [] }

/-- `fetchOneNoteRawDataConcurrentWithConfig`.  `config` bounds the worker
counts; its connection to the schedules is the `ValidDist` hypothesis of the
theorems, mirroring the spawn loops `for i := 0; i < config.Max...Workers`. -/
def fetchOneNoteRawDataConcurrentWithConfig (c : ClientCfg) (api : GraphAPI)
    (config : ConcurrencyConfig)
    (sdist : List SectionJob → PoolSchedule SectionJob)
    (sarr : List SectionResult → List SectionResult)
    (cdist : List ContentJob → PoolSchedule ContentJob)
    (carr : List ContentResult → List ContentResult) :
    Except GoErr OneNoteRawData :=
  match stage1 c api with
  | .fatal e => .error e
  | .early raw => .ok raw
  | .proceed nbs grouped jobs =>
    let sres := sarr (runSectionPool api (sdist jobs))
    .ok (stage2 api cdist carr nbs grouped sres)

/-- The section jobs a run dispatches (sent on the job channel). -/
def sectionJobsOfRun (c : ClientCfg) (api : GraphAPI) : List SectionJob :=
  match stage1 c api with
  | .proceed _ _ jobs => jobs
  | _ => []

/-- The section results a run's collector receives, in arrival order. -/
def sectionResultsOfRun (c : ClientCfg) (api : GraphAPI)
    (sdist : List SectionJob → PoolSchedule SectionJob)
    (sarr : List SectionResult → List SectionResult) : List SectionResult :=
  match stage1 c api with
  | .proceed _ _ jobs => sarr (runSectionPool api (sdist jobs))
  | _ => []

/-- The content jobs a run dispatches. -/
def contentJobsOfRun (c : ClientCfg) (api : GraphAPI)
    (sdist : List SectionJob → PoolSchedule SectionJob)
    (sarr : List SectionResult → List SectionResult) : List ContentJob :=
  let col := collectSectionResults (sectionResultsOfRun c api sdist sarr)
    emptySectionCollect
  match stage1 c api with
  | .proceed _ _ _ => contentJobsOf col.pages col.totalPages
  | _ => []

/-- The content results a run's collector receives, in arrival order. -/
def contentResultsOfRun (c : ClientCfg) (api : GraphAPI)
    (sdist : List SectionJob → PoolSchedule SectionJob)
    (sarr : List SectionResult → List SectionResult)
    (cdist : List ContentJob → PoolSchedule ContentJob)
    (carr : List ContentResult → List ContentResult) : List ContentResult :=
  let cjobs := contentJobsOfRun c api sdist sarr
  if cjobs.isEmpty then []
  else carr (runContentPool api (cdist cjobs))

/-- `combineOneNoteData` (lines 71-120): fetch, then assemble, wrapping a
fetch error; the concurrency parameters are those of the underlying fetch. -/
def combineOneNoteData (c : ClientCfg) (conv : Converters) (api : GraphAPI)
    (config : ConcurrencyConfig)
    (sdist : List SectionJob → PoolSchedule SectionJob)
    (sarr : List SectionResult → List SectionResult)
    (cdist : List ContentJob → PoolSchedule ContentJob)
    (carr : List ContentResult → List ContentResult) (now : Nat) :
    Except GoErr DocumentCollection :=
  match fetchOneNoteRawDataConcurrentWithConfig c api config sdist sarr cdist carr with
  | .error e => .error (.fetchOneNoteDataFailed e)
  | .ok raw => .ok (combineLoop conv now raw (NewDocumentCollection "OneNote" now))

/-!
Lemmas about the modelled Go maps.
-/

@[simp]
theorem mapLookup_mapInsert_self {V : Type} (m : List (String × V)) (k : String)
    (v : V) : mapLookup (mapInsert m k v) k = some v := by
  induction m with
  | nil => simp [mapInsert, mapLookup]
  | cons kv rest ih =>
    by_cases h : kv.1 = k
    · simp [mapInsert, mapLookup, h]
    · simp [mapInsert, mapLookup, h, ih]

theorem mapLookup_mapInsert_ne {V : Type} (m : List (String × V)) (k k' : String)
    (v : V) (h : k ≠ k') :
    mapLookup (mapInsert m k v) k' = mapLookup m k' := by
  induction m with
  | nil => simp [mapInsert, mapLookup, h]
  | cons kv rest ih =>
    by_cases hk : kv.1 = k
    · simp [mapInsert, mapLookup, hk, h]
    · by_cases hk' : kv.1 = k'
      · simp [mapInsert, mapLookup, hk, hk', Ne.symm h]
      · simp [mapInsert, mapLookup, hk, hk', ih]

@[simp]
theorem memKey_nil {V : Type} (k : String) : memKey ([] : List (String × V)) k = false := by
  simp [memKey, mapLookup]

/-!
C10.  `NewDocumentCollection` / `AddDocument` behaviour.
-/

/-- C10: `NewDocumentCollection` returns a collection with schema version
`"v1"`, no documents, and the construction-time timestamp; `AddDocument`
appends exactly the given document at the end of `Documents` and leaves
`Source`, `SchemaVersion`, and `FetchedAt` unchanged. -/
theorem C10_collection_construction (source : String) (now : Nat)
    (dc : DocumentCollection) (doc : Document) :
    (NewDocumentCollection source now).SchemaVersion = "v1" ∧
    (NewDocumentCollection source now).Documents = [] ∧
    (NewDocumentCollection source now).FetchedAt = now ∧
    (AddDocument dc doc).Documents = dc.Documents ++ [doc] ∧
    (AddDocument dc doc).Source = dc.Source ∧
    (AddDocument dc doc).SchemaVersion = dc.SchemaVersion ∧
    (AddDocument dc doc).FetchedAt = dc.FetchedAt :=
  ⟨rfl, rfl, rfl, rfl, rfl, rfl, rfl⟩

/-!
C1.  The top-level fetch errs exactly on the two hard-fatal conditions.
-/

theorem stage1AfterNotebooks_fatal_iff (api : GraphAPI)
    (resp : Except GoErr (Option (List Notebook))) :
    (∃ e, stage1AfterNotebooks api resp = .fatal e) ↔ ∃ e, resp = .error e := by
  cases resp with
  | error e => simp [stage1AfterNotebooks]
  | ok v =>
    cases v with
    | none => simp [stage1AfterNotebooks]
    | some nbs =>
      cases hsec : api.sectionsGet with
      | error e => simp [stage1AfterNotebooks, hsec]
      | ok s =>
        cases s with
        | none => simp [stage1AfterNotebooks, hsec]
        | some secs =>
          constructor
          · rintro ⟨e, he⟩
            simp only [stage1AfterNotebooks, hsec] at he
            split at he <;> simp_all
          · rintro ⟨e, he⟩
            simp at he

theorem stage1_fatal_iff (c : ClientCfg) (api : GraphAPI) :
    (∃ e, stage1 c api = .fatal e) ↔
      ((c.isDelegatedAuth = false ∧ c.userID = "") ∨
        ∃ e, api.notebooksGet = .error e) := by
  unfold stage1
  cases hd : c.isDelegatedAuth with
  | true => simp [stage1AfterNotebooks_fatal_iff]
  | false =>
    by_cases hu : c.userID = ""
    · simp [hu]
    · simp [hu, stage1AfterNotebooks_fatal_iff]

/-- C1: `fetchOneNoteRawDataConcurrentWithConfig` returns a non-nil error
if and only if the notebook-list call itself fails or application-identity
mode is configured with an empty target user id; in every other case —
whatever happens to the section-list call and to the per-section and
per-page work — it returns a snapshot with a nil error. -/
theorem C1_fetch_error_iff (c : ClientCfg) (api : GraphAPI)
    (config : ConcurrencyConfig)
    (sdist : List SectionJob → PoolSchedule SectionJob)
    (sarr : List SectionResult → List SectionResult)
    (cdist : List ContentJob → PoolSchedule ContentJob)
    (carr : List ContentResult → List ContentResult) :
    ((∃ e, fetchOneNoteRawDataConcurrentWithConfig c api config sdist sarr cdist carr
        = .error e) ↔
      ((c.isDelegatedAuth = false ∧ c.userID = "") ∨
        ∃ e, api.notebooksGet = .error e)) ∧
    (¬ ((c.isDelegatedAuth = false ∧ c.userID = "") ∨
        ∃ e, api.notebooksGet = .error e) →
      ∃ raw, fetchOneNoteRawDataConcurrentWithConfig c api config sdist sarr cdist carr
        = .ok raw) := by
  have hiff : (∃ e, fetchOneNoteRawDataConcurrentWithConfig c api config sdist sarr cdist carr
      = .error e) ↔ ∃ e, stage1 c api = .fatal e := by
    unfold fetchOneNoteRawDataConcurrentWithConfig
    cases stage1 c api <;> simp
  constructor
  · exact hiff.trans (stage1_fatal_iff c api)
  · intro hnot
    have hnf : ¬ ∃ e, fetchOneNoteRawDataConcurrentWithConfig c api config sdist sarr cdist carr
        = .error e := fun h => hnot ((hiff.trans (stage1_fatal_iff c api)).mp h)
    cases hres : fetchOneNoteRawDataConcurrentWithConfig c api config sdist sarr cdist carr with
    | error e => exact absurd ⟨e, hres⟩ hnf
    | ok raw => exact ⟨raw, rfl⟩

/-!
Concrete fixtures used by counterexamples and witnesses.
-/

/-- A notebook with id `"nb1"`. -/
def nbX : Notebook := { id := some "nb1", displayName := some "NB" }

/-- A section `"s1"` whose parent is `nbX`. -/
def secX : OnenoteSection :=
  { id := some "s1", displayName := some "S", parentNotebook := some nbX }

/-- A section `"s2"` whose parent is `nbX` (its page-list call fails below). -/
def secY : OnenoteSection :=
  { id := some "s2", displayName := some "T", parentNotebook := some nbX }

/-- A page `"p1"`. -/
def pgX : Page := { id := some "p1", title := some "P", createdDateTime := some 5 }

/-- A delegated-identity client (no target user id needed). -/
def cDelegated : ClientCfg := { isDelegatedAuth := true, userID := "" }

/-- A single worker pulls the whole section queue; never cancelled. -/
def oneWorkerS : List SectionJob → PoolSchedule SectionJob :=
  fun js => [(fun _ => false, js)]

/-- A single worker pulls the whole content queue; never cancelled. -/
def oneWorkerC : List ContentJob → PoolSchedule ContentJob :=
  fun js => [(fun _ => false, js)]

/-- One section worker and one content worker. -/
def cfgOne : ConcurrencyConfig := { MaxSectionWorkers := 1, MaxContentWorkers := 1 }

/-- An API whose notebook list is present but empty (`GetValue()` returns an
empty, non-nil slice), while the flat section list still names `nbX` as a
parent and all downstream calls succeed. -/
def apiC4 : GraphAPI :=
  { notebooksGet := .ok (some [])
    sectionsGet := .ok (some [secX])
    pagesGet := fun sid => if sid == "s1" then .ok (some [pgX]) else .error (.api "no such section")
    contentGet := fun pid => if pid == "p1" then .ok "<p>hi</p>" else .error (.api "no such page") }

/-- Like `apiC4` but with one notebook actually present. -/
def apiC3 : GraphAPI :=
  { notebooksGet := .ok (some [nbX])
    sectionsGet := .ok (some [secX])
    pagesGet := fun sid => if sid == "s1" then .ok (some [pgX]) else .error (.api "no such section")
    contentGet := fun pid => if pid == "p1" then .ok "<p>hi</p>" else .error (.api "no such page") }

/-- An API whose notebook response is nil. -/
def apiNil : GraphAPI :=
  { notebooksGet := .ok none
    sectionsGet := .ok none
    pagesGet := fun _ => .error (.api "unused")
    contentGet := fun _ => .error (.api "unused") }

/-- An API whose notebook-list call fails outright. -/
def apiDown : GraphAPI :=
  { notebooksGet := .error (.api "service unavailable")
    sectionsGet := .ok none
    pagesGet := fun _ => .ok none
    contentGet := fun _ => .ok "" }

/-- Witness for C1 at a delegated client whose notebook-list call fails. -/
theorem C1_witness :
    ((∃ e, fetchOneNoteRawDataConcurrentWithConfig cDelegated apiDown cfgOne
        oneWorkerS id oneWorkerC id = .error e) ↔
      ((cDelegated.isDelegatedAuth = false ∧ cDelegated.userID = "") ∨
        ∃ e, apiDown.notebooksGet = .error e)) ∧
    (¬ ((cDelegated.isDelegatedAuth = false ∧ cDelegated.userID = "") ∨
        ∃ e, apiDown.notebooksGet = .error e) →
      ∃ raw, fetchOneNoteRawDataConcurrentWithConfig cDelegated apiDown cfgOne
        oneWorkerS id oneWorkerC id = .ok raw) :=
  C1_fetch_error_iff cDelegated apiDown cfgOne oneWorkerS id oneWorkerC id

/-!
C4 (corrected).  The code short-circuits only on a nil notebook response or
nil value slice; an empty-but-non-nil notebook list does not short-circuit,
and the snapshot can then contain sections, pages, and content entries.
-/

/-- C4 counterexample: the notebook-list call succeeds with an empty list,
yet the fetch does not return an empty snapshot — sections, pages, and
content entries are all non-empty. -/
theorem C4_counterexample :
    apiC4.notebooksGet = .ok (some []) ∧
    fetchOneNoteRawDataConcurrentWithConfig cDelegated apiC4 cfgOne
        oneWorkerS id oneWorkerC id =
      .ok { Notebooks := [], Sections := [("nb1", [secX])],
            Pages := [("s1", [pgX])], Content := [("p1", "<p>hi</p>")] } ∧
    ([("nb1", [secX])] : List (String × List OnenoteSection)) ≠ [] := by
  refine ⟨rfl, rfl, by decide⟩

/-- C4 as amended: if the notebook-list call succeeds but returns a *nil*
response or nil value slice, the fetch returns immediately with a nil error
and a snapshot containing zero notebooks, sections, pages, and content
entries.  (An empty-but-non-nil list instead proceeds to the section fetch.) -/
theorem C4_amended_nil_notebooks (c : ClientCfg) (api : GraphAPI)
    (config : ConcurrencyConfig)
    (sdist : List SectionJob → PoolSchedule SectionJob)
    (sarr : List SectionResult → List SectionResult)
    (cdist : List ContentJob → PoolSchedule ContentJob)
    (carr : List ContentResult → List ContentResult)
    (hid : c.isDelegatedAuth = true ∨ c.userID ≠ "")
    (hnb : api.notebooksGet = .ok none) :
    fetchOneNoteRawDataConcurrentWithConfig c api config sdist sarr cdist carr =
      .ok { Notebooks := [], Sections := [], Pages := [], Content := [] } := by
  cases hd : c.isDelegatedAuth with
  | true =>
    simp [fetchOneNoteRawDataConcurrentWithConfig, stage1, hd, hnb,
      stage1AfterNotebooks, emptyRaw]
  | false =>
    have hu : c.userID ≠ "" := by
      rcases hid with h | h
      · exact absurd (h.symm.trans hd) (by decide)
      · exact h
    simp [fetchOneNoteRawDataConcurrentWithConfig, stage1, hd, hu, hnb,
      stage1AfterNotebooks, emptyRaw]

/-- Witness for the amended C4 at a concrete nil-notebooks API. -/
theorem C4_amended_witness :
    fetchOneNoteRawDataConcurrentWithConfig cDelegated apiNil cfgOne
        oneWorkerS id oneWorkerC id =
      .ok { Notebooks := [], Sections := [], Pages := [], Content := [] } :=
  C4_amended_nil_notebooks cDelegated apiNil cfgOne oneWorkerS id oneWorkerC id
    (Or.inl rfl) rfl

/-!
C3 (corrected).  There is no validation or clamping of
`maxSectionWorkers`: with a non-positive value the spawn loop starts zero
workers and the fetch still completes (buffered channels, so no deadlock),
returning a snapshot whose `Pages` and `Content` maps are empty.
-/

/-- C3 counterexample: with `MaxSectionWorkers = 0` the spawn loop starts 0,
not 1, workers; the empty schedule is the valid one for that count; the job
queue is non-empty; and the fetch neither rejects the configuration nor
processes anything — it returns `.ok` with empty `Pages` and `Content`. -/
theorem C3_counterexample :
    spawnedWorkers 0 = 0 ∧
    spawnedWorkers 0 ≠ 1 ∧
    ValidDist 0 (sectionJobsOfRun cDelegated apiC3) [] ∧
    sectionJobsOfRun cDelegated apiC3 ≠ [] ∧
    fetchOneNoteRawDataConcurrentWithConfig cDelegated apiC3
        { MaxSectionWorkers := 0, MaxContentWorkers := 10 }
        (fun _ => []) id (fun _ => []) id =
      .ok { Notebooks := [nbX], Sections := [("nb1", [secX])],
            Pages := [], Content := [] } := by
  refine ⟨rfl, by decide, ⟨rfl, ?_⟩, by decide, rfl⟩
  intro w hw
  simp at hw

/-- C3 as amended: the orchestrator performs no configuration validation —
with `maxSectionWorkers ≤ 0` it spawns zero workers against the non-empty
job queue; the fetch still terminates without deadlock (the job and result
channels are buffered to the job count), returning a nil error and a
snapshot whose `Pages` and `Content` maps are empty. -/
theorem C3_amended_zero_workers (c : ClientCfg) (api : GraphAPI)
    (cfg : ConcurrencyConfig)
    (sdist : List SectionJob → PoolSchedule SectionJob)
    (sarr : List SectionResult → List SectionResult)
    (cdist : List ContentJob → PoolSchedule ContentJob)
    (carr : List ContentResult → List ContentResult)
    (hneg : cfg.MaxSectionWorkers ≤ 0)
    (hlen : ∀ js, (sdist js).length = spawnedWorkers cfg.MaxSectionWorkers)
    (harr : ∀ rs, List.Perm (sarr rs) rs)
    (nbs : List Notebook) (grouped : List (String × List OnenoteSection))
    (jobs : List SectionJob)
    (hst : stage1 c api = .proceed nbs grouped jobs) :
    fetchOneNoteRawDataConcurrentWithConfig c api cfg sdist sarr cdist carr =
      .ok { Notebooks := nbs, Sections := grouped, Pages := [], Content := [] } := by
  have hzero : spawnedWorkers cfg.MaxSectionWorkers = 0 := by
    simp [spawnedWorkers, Int.toNat_eq_zero]
    exact hneg
  have hdist : sdist jobs = [] := by
    have := hlen jobs
    rw [hzero] at this
    exact List.length_eq_zero.mp this
  have hpool : runSectionPool api (sdist jobs) = [] := by
    simp [runSectionPool, hdist]
  have hres : sarr (runSectionPool api (sdist jobs)) = [] := by
    rw [hpool]
    exact (harr []).eq_nil
  simp [fetchOneNoteRawDataConcurrentWithConfig, hst, hres, stage2,
    collectSectionResults, emptySectionCollect, contentJobsOf, contentJobsCore]

/-- Witness for the amended C3 at the concrete zero-worker run. -/
theorem C3_amended_witness :
    fetchOneNoteRawDataConcurrentWithConfig cDelegated apiC3
        { MaxSectionWorkers := 0, MaxContentWorkers := 10 }
        (fun _ => []) id (fun _ => []) id =
      .ok { Notebooks := [nbX], Sections := [("nb1", [secX])],
            Pages := [], Content := [] } :=
  C3_amended_zero_workers cDelegated apiC3
    { MaxSectionWorkers := 0, MaxContentWorkers := 10 }
    (fun _ => []) id (fun _ => []) id (by decide) (fun _ => rfl)
    (fun rs => List.Perm.refl rs) [nbX] [("nb1", [secX])]
    (sectionJobsOf [("nb1", [secX])]) rfl

/-!
C2.  A pool of never-cancelled workers emits exactly one result per job.
-/

theorem sectionWorker_length_noCancel (api : GraphAPI) (done : Nat → Bool)
    (h : ∀ k, done k = false) :
    ∀ (jobs : List SectionJob) (n : Nat),
      ((sectionWorker api done n jobs).results).length = jobs.length := by
  intro jobs
  induction jobs with
  | nil => intro n; simp [sectionWorker]
  | cons job rest ih => intro n; simp [sectionWorker, h n, ih (n + 1)]

theorem contentWorker_length_noCancel (api : GraphAPI) (done : Nat → Bool)
    (h : ∀ k, done k = false) :
    ∀ (jobs : List ContentJob) (n : Nat),
      ((contentWorker api done n jobs).results).length = jobs.length := by
  intro jobs
  induction jobs with
  | nil => intro n; simp [contentWorker]
  | cons job rest ih => intro n; simp [contentWorker, h n, ih (n + 1)]

theorem runSectionPool_length_noCancel (api : GraphAPI)
    (ws : PoolSchedule SectionJob) (hnc : NoCancel ws) :
    (runSectionPool api ws).length = ((ws.map Prod.snd).flatten).length := by
  simp only [runSectionPool, List.length_flatten, List.map_map]
  apply congrArg List.sum
  apply List.map_congr_left
  intro w hw
  exact sectionWorker_length_noCancel api w.1 (hnc w hw) w.2 0

theorem runContentPool_length_noCancel (api : GraphAPI)
    (ws : PoolSchedule ContentJob) (hnc : NoCancel ws) :
    (runContentPool api ws).length = ((ws.map Prod.snd).flatten).length := by
  simp only [runContentPool, List.length_flatten, List.map_map]
  apply congrArg List.sum
  apply List.map_congr_left
  intro w hw
  exact contentWorker_length_noCancel api w.1 (hnc w hw) w.2 0

/-- C2: for every job list handed to a worker pool with at least one worker
and no cancellation, the pool emits exactly one result per job — the number
of `SectionResult`s (resp. `ContentResult`s) equals the number of dispatched
`SectionJob`s (resp. `ContentJob`s) whatever the distribution of jobs among
the workers. -/
theorem C2_one_result_per_job (api : GraphAPI)
    (sws : PoolSchedule SectionJob) (cws : PoolSchedule ContentJob)
    (sjobs : List SectionJob) (cjobs : List ContentJob)
    (hsw : 1 ≤ sws.length) (hsnc : NoCancel sws) (hsd : DrainedDist sjobs sws)
    (hcw : 1 ≤ cws.length) (hcnc : NoCancel cws) (hcd : DrainedDist cjobs cws) :
    (runSectionPool api sws).length = sjobs.length ∧
    (runContentPool api cws).length = cjobs.length := by
  constructor
  · rw [runSectionPool_length_noCancel api sws hsnc]
    exact hsd.length_eq
  · rw [runContentPool_length_noCancel api cws hcnc]
    exact hcd.length_eq

/-- A concrete section job for `secX`. -/
def jobX : SectionJob :=
  { NotebookID := "nb1", Section := secX, SectionIndex := 1, TotalSections := 1 }

/-- A concrete content job for `pgX`. -/
def cjobX : ContentJob :=
  { PageID := "p1", PageTitle := "P", PageIndex := 1, TotalPages := 1 }

/-- Witness for C2 at a one-worker, one-job pool of each kind. -/
theorem C2_witness :
    (runSectionPool apiC3 (oneWorkerS [jobX])).length = [jobX].length ∧
    (runContentPool apiC3 (oneWorkerC [cjobX])).length = [cjobX].length := by
  refine C2_one_result_per_job apiC3 (oneWorkerS [jobX]) (oneWorkerC [cjobX])
    [jobX] [cjobX] ?_ ?_ ?_ ?_ ?_ ?_
  · simp [oneWorkerS]
  · rintro w hw k
    simp only [oneWorkerS, List.mem_singleton] at hw
    subst hw
    rfl
  · simp [DrainedDist, oneWorkerS]
  · simp [oneWorkerC]
  · rintro w hw k
    simp only [oneWorkerC, List.mem_singleton] at hw
    subst hw
    rfl
  · simp [DrainedDist, oneWorkerC]

/-!
C8.  Worker cancellation: the check happens before each job is started;
upon observing cancellation the worker emits exactly one `ctx.Err()` result,
starts no further network call, and pulls nothing more from the queue.
-/

theorem sectionWorker_cancel_char (api : GraphAPI) (done : Nat → Bool) :
    ∀ (jobs : List SectionJob) (m n : Nat),
      m < jobs.length → done (n + m) = true → (∀ i < m, done (n + i) = false) →
      sectionWorker api done n jobs =
        { results := ((jobs.take m).map (processSectionJob api)) ++ [cancelSectionResult]
          calls := (jobs.take m).filter sectionJobCalls
          pulled := m + 1 } := by
  intro jobs
  induction jobs with
  | nil => intro m n hm; simp at hm
  | cons job rest ih =>
    intro m n hm hdm hlt
    cases m with
    | zero =>
      have h0 : done n = true := by simpa using hdm
      simp [sectionWorker, h0]
    | succ m' =>
      have h0 : done n = false := by simpa using hlt 0 (Nat.succ_pos m')
      have hdm' : done ((n + 1) + m') = true := by
        have hnm : n + (m' + 1) = (n + 1) + m' := by omega
        rwa [hnm] at hdm
      have hlt' : ∀ i < m', done ((n + 1) + i) = false := by
        intro i hi
        have hni : (n + 1) + i = n + (i + 1) := by omega
        rw [hni]
        exact hlt (i + 1) (by omega)
      have hm' : m' < rest.length := by simpa using hm
      simp [sectionWorker, h0, ih m' (n + 1) hm' hdm' hlt', List.filter_cons]

theorem contentWorker_cancel_char (api : GraphAPI) (done : Nat → Bool) :
    ∀ (jobs : List ContentJob) (m n : Nat),
      m < jobs.length → done (n + m) = true → (∀ i < m, done (n + i) = false) →
      contentWorker api done n jobs =
        { results := ((jobs.take m).map (processContentJob api)) ++ [cancelContentResult]
          calls := jobs.take m
          pulled := m + 1 } := by
  intro jobs
  induction jobs with
  | nil => intro m n hm; simp at hm
  | cons job rest ih =>
    intro m n hm hdm hlt
    cases m with
    | zero =>
      have h0 : done n = true := by simpa using hdm
      simp [contentWorker, h0]
    | succ m' =>
      have h0 : done n = false := by simpa using hlt 0 (Nat.succ_pos m')
      have hdm' : done ((n + 1) + m') = true := by
        have hnm : n + (m' + 1) = (n + 1) + m' := by omega
        rwa [hnm] at hdm
      have hlt' : ∀ i < m', done ((n + 1) + i) = false := by
        intro i hi
        have hni : (n + 1) + i = n + (i + 1) := by omega
        rw [hni]
        exact hlt (i + 1) (by omega)
      have hm' : m' < rest.length := by simpa using hm
      simp [contentWorker, h0, ih m' (n + 1) hm' hdm' hlt']

theorem processSectionJob_error_ne_cancel (api : GraphAPI) (job : SectionJob) :
    (processSectionJob api job).Error ≠ some GoErr.ctxCanceled := by
  simp only [processSectionJob]
  split
  · simp
  · split <;> simp

theorem processContentJob_error_ne_cancel (api : GraphAPI) (job : ContentJob) :
    (processContentJob api job).Error ≠ some GoErr.ctxCanceled := by
  unfold processContentJob
  split <;> simp

theorem filter_cancel_map_processSectionJob (api : GraphAPI) (l : List SectionJob) :
    (l.map (processSectionJob api)).filter
      (fun r => r.Error == some GoErr.ctxCanceled) = [] := by
  rw [List.filter_eq_nil_iff]
  intro r hr
  rcases List.mem_map.mp hr with ⟨job, hj, rfl⟩
  simpa using processSectionJob_error_ne_cancel api job

theorem filter_cancel_map_processContentJob (api : GraphAPI) (l : List ContentJob) :
    (l.map (processContentJob api)).filter
      (fun r => r.Error == some GoErr.ctxCanceled) = [] := by
  rw [List.filter_eq_nil_iff]
  intro r hr
  rcases List.mem_map.mp hr with ⟨job, hj, rfl⟩
  simpa using processContentJob_error_ne_cancel api job

/-- C8: each worker checks cancellation before starting each pulled job; the
worker whose `k`-th check first observes cancellation emits the processed
results of its first `k` jobs followed by exactly one result carrying the
cancellation error, issues network calls only for those first `k` jobs, and
pulls exactly `k + 1` jobs (nothing further) from the queue — for section
workers and content workers alike. -/
theorem C8_worker_cancellation (api : GraphAPI) (sdone cdone : Nat → Bool)
    (sjobs : List SectionJob) (cjobs : List ContentJob) (k k' : Nat)
    (hk : k < sjobs.length) (hdk : sdone k = true)
    (hfk : ∀ i < k, sdone i = false)
    (hk' : k' < cjobs.length) (hdk' : cdone k' = true)
    (hfk' : ∀ i < k', cdone i = false) :
    (sectionWorker api sdone 0 sjobs).results =
      ((sjobs.take k).map (processSectionJob api)) ++ [cancelSectionResult] ∧
    ((sectionWorker api sdone 0 sjobs).results.filter
      (fun r => r.Error == some GoErr.ctxCanceled)).length = 1 ∧
    (sectionWorker api sdone 0 sjobs).calls = (sjobs.take k).filter sectionJobCalls ∧
    (sectionWorker api sdone 0 sjobs).pulled = k + 1 ∧
    (contentWorker api cdone 0 cjobs).results =
      ((cjobs.take k').map (processContentJob api)) ++ [cancelContentResult] ∧
    ((contentWorker api cdone 0 cjobs).results.filter
      (fun r => r.Error == some GoErr.ctxCanceled)).length = 1 ∧
    (contentWorker api cdone 0 cjobs).calls = cjobs.take k' ∧
    (contentWorker api cdone 0 cjobs).pulled = k' + 1 := by
  have hdk0 : sdone (0 + k) = true := by simpa using hdk
  have hfk0 : ∀ i < k, sdone (0 + i) = false := by
    intro i hi; simpa using hfk i hi
  have hdk0' : cdone (0 + k') = true := by simpa using hdk'
  have hfk0' : ∀ i < k', cdone (0 + i) = false := by
    intro i hi; simpa using hfk' i hi
  have hs := sectionWorker_cancel_char api sdone sjobs k 0 hk hdk0 hfk0
  have hc := contentWorker_cancel_char api cdone cjobs k' 0 hk' hdk0' hfk0'
  refine ⟨by rw [hs], ?_, by rw [hs], by rw [hs], by rw [hc], ?_, by rw [hc], by rw [hc]⟩
  · rw [hs]
    show ((((sjobs.take k).map (processSectionJob api)) ++ [cancelSectionResult]).filter
      (fun r => r.Error == some GoErr.ctxCanceled)).length = 1
    rw [List.filter_append, filter_cancel_map_processSectionJob]
    simp [cancelSectionResult]
  · rw [hc]
    show ((((cjobs.take k').map (processContentJob api)) ++ [cancelContentResult]).filter
      (fun r => r.Error == some GoErr.ctxCanceled)).length = 1
    rw [List.filter_append, filter_cancel_map_processContentJob]
    simp [cancelContentResult]

/-- Witness for C8: two-job queues whose worker observes cancellation at its
second check. -/
theorem C8_witness :
    (sectionWorker apiC3 (fun k => decide (1 ≤ k)) 0 [jobX, jobX]).results =
      (([jobX, jobX].take 1).map (processSectionJob apiC3)) ++ [cancelSectionResult] ∧
    ((sectionWorker apiC3 (fun k => decide (1 ≤ k)) 0 [jobX, jobX]).results.filter
      (fun r => r.Error == some GoErr.ctxCanceled)).length = 1 ∧
    (sectionWorker apiC3 (fun k => decide (1 ≤ k)) 0 [jobX, jobX]).calls =
      ([jobX, jobX].take 1).filter sectionJobCalls ∧
    (sectionWorker apiC3 (fun k => decide (1 ≤ k)) 0 [jobX, jobX]).pulled = 1 + 1 ∧
    (contentWorker apiC3 (fun k => decide (1 ≤ k)) 0 [cjobX, cjobX]).results =
      (([cjobX, cjobX].take 1).map (processContentJob apiC3)) ++ [cancelContentResult] ∧
    ((contentWorker apiC3 (fun k => decide (1 ≤ k)) 0 [cjobX, cjobX]).results.filter
      (fun r => r.Error == some GoErr.ctxCanceled)).length = 1 ∧
    (contentWorker apiC3 (fun k => decide (1 ≤ k)) 0 [cjobX, cjobX]).calls =
      [cjobX, cjobX].take 1 ∧
    (contentWorker apiC3 (fun k => decide (1 ≤ k)) 0 [cjobX, cjobX]).pulled = 1 + 1 :=
  C8_worker_cancellation apiC3 (fun k => decide (1 ≤ k)) (fun k => decide (1 ≤ k))
    [jobX, jobX] [cjobX, cjobX] 1 1 (by decide) (by decide) (by decide)
    (by decide) (by decide) (by decide)

/-!
Shape lemmas: what results a pool can put on the result channel, and how
the collection loops merge them.
-/

theorem sectionWorker_results_shape (api : GraphAPI) (done : Nat → Bool) :
    ∀ (jobs : List SectionJob) (n : Nat) (r : SectionResult),
      r ∈ (sectionWorker api done n jobs).results →
      r = cancelSectionResult ∨ ∃ job ∈ jobs, r = processSectionJob api job := by
  intro jobs
  induction jobs with
  | nil => intro n r hr; simp [sectionWorker] at hr
  | cons job rest ih =>
    intro n r hr
    cases h : done n with
    | true =>
      simp [sectionWorker, h] at hr
      exact Or.inl hr
    | false =>
      simp only [sectionWorker, h, Bool.false_eq_true, if_false,
        List.mem_cons] at hr
      rcases hr with hr | hr
      · exact Or.inr ⟨job, by simp, hr⟩
      · rcases ih (n + 1) r hr with hc | ⟨j, hj, hrj⟩
        · exact Or.inl hc
        · exact Or.inr ⟨j, by simp [hj], hrj⟩

theorem contentWorker_results_shape (api : GraphAPI) (done : Nat → Bool) :
    ∀ (jobs : List ContentJob) (n : Nat) (r : ContentResult),
      r ∈ (contentWorker api done n jobs).results →
      r = cancelContentResult ∨ ∃ job ∈ jobs, r = processContentJob api job := by
  intro jobs
  induction jobs with
  | nil => intro n r hr; simp [contentWorker] at hr
  | cons job rest ih =>
    intro n r hr
    cases h : done n with
    | true =>
      simp [contentWorker, h] at hr
      exact Or.inl hr
    | false =>
      simp only [contentWorker, h, Bool.false_eq_true, if_false,
        List.mem_cons] at hr
      rcases hr with hr | hr
      · exact Or.inr ⟨job, by simp, hr⟩
      · rcases ih (n + 1) r hr with hc | ⟨j, hj, hrj⟩
        · exact Or.inl hc
        · exact Or.inr ⟨j, by simp [hj], hrj⟩

theorem runSectionPool_shape (api : GraphAPI) (ws : PoolSchedule SectionJob)
    (r : SectionResult) (hr : r ∈ runSectionPool api ws) :
    r = cancelSectionResult ∨
      ∃ w ∈ ws, ∃ job ∈ w.2, r = processSectionJob api job := by
  rcases List.mem_flatten.mp hr with ⟨l, hl, hrl⟩
  rcases List.mem_map.mp hl with ⟨w, hw, rfl⟩
  rcases sectionWorker_results_shape api w.1 w.2 0 r hrl with hc | ⟨job, hj, hrj⟩
  · exact Or.inl hc
  · exact Or.inr ⟨w, hw, job, hj, hrj⟩

theorem runContentPool_shape (api : GraphAPI) (ws : PoolSchedule ContentJob)
    (r : ContentResult) (hr : r ∈ runContentPool api ws) :
    r = cancelContentResult ∨
      ∃ w ∈ ws, ∃ job ∈ w.2, r = processContentJob api job := by
  rcases List.mem_flatten.mp hr with ⟨l, hl, hrl⟩
  rcases List.mem_map.mp hl with ⟨w, hw, rfl⟩
  rcases contentWorker_results_shape api w.1 w.2 0 r hrl with hc | ⟨job, hj, hrj⟩
  · exact Or.inl hc
  · exact Or.inr ⟨w, hw, job, hj, hrj⟩

theorem processSectionJob_success_shape (api : GraphAPI) (job : SectionJob)
    (h : (processSectionJob api job).Error = none) :
    ∃ v, api.pagesGet (getStringValue job.Section.id) = .ok v ∧
      processSectionJob api job =
        { SectionID := getStringValue job.Section.id, Pages := v.getD [],
          Error := none } ∧
      getStringValue job.Section.id ≠ "" := by
  simp only [processSectionJob] at h ⊢
  by_cases hid : (getStringValue job.Section.id == "") = true
  · rw [if_pos hid] at h
    simp at h
  · rw [if_neg hid] at h ⊢
    cases hp : api.pagesGet (getStringValue job.Section.id) with
    | error e => rw [hp] at h; simp at h
    | ok v =>
      refine ⟨v, rfl, rfl, ?_⟩
      simpa using hid

theorem processSectionJob_error_shape (api : GraphAPI) (job : SectionJob)
    (h : (processSectionJob api job).Error.isSome = true) :
    (processSectionJob api job).SectionID = "" ∨
      ∃ e, api.pagesGet ((processSectionJob api job).SectionID) = .error e := by
  simp only [processSectionJob] at h ⊢
  by_cases hid : (getStringValue job.Section.id == "") = true
  · left
    rw [if_pos hid]
    simpa using hid
  · rw [if_neg hid] at h ⊢
    cases hp : api.pagesGet (getStringValue job.Section.id) with
    | error e => rw [hp]; exact Or.inr ⟨e, rfl⟩
    | ok v => rw [hp] at h; simp at h

theorem processContentJob_pageID (api : GraphAPI) (job : ContentJob) :
    (processContentJob api job).PageID = job.PageID := by
  simp only [processContentJob]
  cases api.contentGet job.PageID <;> rfl

theorem collectSection_memKey_iff (sid : String) :
    ∀ (rs : List SectionResult) (acc : SectionCollect),
      memKey (collectSectionResults rs acc).pages sid = true ↔
        (memKey acc.pages sid = true ∨
          ∃ r ∈ rs, r.Error = none ∧ r.SectionID = sid) := by
  intro rs
  induction rs with
  | nil => intro acc; simp [collectSectionResults]
  | cons r rest ih =>
    intro acc
    cases hE : r.Error with
    | some e => simp [collectSectionResults, hE, ih]
    | none =>
      simp only [collectSectionResults, hE]
      rw [ih]
      by_cases hsid : r.SectionID = sid
      · subst hsid
        constructor
        · intro _
          exact Or.inr ⟨r, by simp, hE, rfl⟩
        · intro _
          left
          simp [memKey, mapLookup_mapInsert_self]
      · have hne : memKey (mapInsert acc.pages r.SectionID r.Pages) sid =
            memKey acc.pages sid := by
          simp [memKey, mapLookup_mapInsert_ne _ _ _ _ hsid]
        rw [hne]
        constructor
        · rintro (h | ⟨r', hr', hE', hsid'⟩)
          · exact Or.inl h
          · exact Or.inr ⟨r', by simp [hr'], hE', hsid'⟩
        · rintro (h | ⟨r', hr', hE', hsid'⟩)
          · exact Or.inl h
          · rcases List.mem_cons.mp hr' with rfl | hr'
            · exact absurd hsid' hsid
            · exact Or.inr ⟨r', hr', hE', hsid'⟩

theorem collectSection_lookup_const (sid : String) (P : List Page) :
    ∀ (rs : List SectionResult) (acc : SectionCollect),
      (∀ r ∈ rs, r.Error = none → r.SectionID = sid → r.Pages = P) →
      mapLookup (collectSectionResults rs acc).pages sid =
        (if rs.any (fun r => r.Error.isNone && (r.SectionID == sid)) then some P
         else mapLookup acc.pages sid) := by
  intro rs
  induction rs with
  | nil => intro acc _; simp [collectSectionResults]
  | cons r rest ih =>
    intro acc hall
    have htail : ∀ r' ∈ rest, r'.Error = none → r'.SectionID = sid → r'.Pages = P :=
      fun r' h' => hall r' (List.mem_cons_of_mem r h')
    cases hE : r.Error with
    | some e =>
      simp only [collectSectionResults, hE]
      rw [ih _ htail]
      simp [List.any_cons, hE]
    | none =>
      simp only [collectSectionResults, hE]
      rw [ih _ htail]
      by_cases hsid : r.SectionID = sid
      · have hP : r.Pages = P := hall r (by simp) hE hsid
        by_cases hany : rest.any (fun r' => r'.Error.isNone && (r'.SectionID == sid)) = true
        · simp [List.any_cons, hE, hsid, hany]
        · simp only [Bool.not_eq_true] at hany
          subst hsid
          simp [List.any_cons, hE, hany, mapLookup_mapInsert_self, hP]
      · have hne : mapLookup (mapInsert acc.pages r.SectionID r.Pages) sid =
            mapLookup acc.pages sid := mapLookup_mapInsert_ne _ _ _ _ hsid
        simp [List.any_cons, hE, hsid, hne]

theorem collectContent_memKey_iff (pid : String) :
    ∀ (rs : List ContentResult) (m : List (String × String)),
      memKey (collectContentResults rs m) pid = true ↔
        (memKey m pid = true ∨ ∃ r ∈ rs, r.Error = none ∧ r.PageID = pid) := by
  intro rs
  induction rs with
  | nil => intro m; simp [collectContentResults]
  | cons r rest ih =>
    intro m
    cases hE : r.Error with
    | some e => simp [collectContentResults, hE, ih]
    | none =>
      simp only [collectContentResults, hE]
      rw [ih]
      by_cases hpid : r.PageID = pid
      · subst hpid
        constructor
        · intro _
          exact Or.inr ⟨r, by simp, hE, rfl⟩
        · intro _
          left
          simp [memKey, mapLookup_mapInsert_self]
      · have hne : memKey (mapInsert m r.PageID r.Content) pid =
            memKey m pid := by
          simp [memKey, mapLookup_mapInsert_ne _ _ _ _ hpid]
        rw [hne]
        constructor
        · rintro (h | ⟨r', hr', hE', hpid'⟩)
          · exact Or.inl h
          · exact Or.inr ⟨r', by simp [hr'], hE', hpid'⟩
        · rintro (h | ⟨r', hr', hE', hpid'⟩)
          · exact Or.inl h
          · rcases List.mem_cons.mp hr' with rfl | hr'
            · exact absurd hpid' hpid
            · exact Or.inr ⟨r', hr', hE', hpid'⟩

theorem fetch_ok_proceed (c : ClientCfg) (api : GraphAPI)
    (config : ConcurrencyConfig)
    (sdist : List SectionJob → PoolSchedule SectionJob)
    (sarr : List SectionResult → List SectionResult)
    (cdist : List ContentJob → PoolSchedule ContentJob)
    (carr : List ContentResult → List ContentResult)
    (nbs : List Notebook) (grouped : List (String × List OnenoteSection))
    (jobs : List SectionJob)
    (hst : stage1 c api = .proceed nbs grouped jobs) :
    fetchOneNoteRawDataConcurrentWithConfig c api config sdist sarr cdist carr =
      .ok (stage2 api cdist carr nbs grouped
        (sarr (runSectionPool api (sdist jobs)))) := by
  simp [fetchOneNoteRawDataConcurrentWithConfig, hst]

theorem stage2_Pages (api : GraphAPI)
    (cdist : List ContentJob → PoolSchedule ContentJob)
    (carr : List ContentResult → List ContentResult)
    (nbs : List Notebook) (grouped : List (String × List OnenoteSection))
    (sres : List SectionResult) :
    (stage2 api cdist carr nbs grouped sres).Pages =
      (collectSectionResults sres emptySectionCollect).pages := by
  simp only [stage2]
  split <;> rfl

/-!
C5.  A failed page-list call keeps that section id out of `Pages`; a
successful sibling is present with its fetched page list.
-/

/-- C5: in any run of the fetch, every section result carrying an error has
its section id absent from the snapshot's `Pages` map, and every successful
section result's id is present, bound to exactly the page list that result
carried. -/
theorem C5_failed_section_absent (c : ClientCfg) (api : GraphAPI)
    (config : ConcurrencyConfig)
    (sdist : List SectionJob → PoolSchedule SectionJob)
    (sarr : List SectionResult → List SectionResult)
    (cdist : List ContentJob → PoolSchedule ContentJob)
    (carr : List ContentResult → List ContentResult)
    (raw : OneNoteRawData)
    (harr : ∀ (rs : List SectionResult) (r : SectionResult), r ∈ sarr rs → r ∈ rs)
    (hfetch : fetchOneNoteRawDataConcurrentWithConfig c api config sdist sarr cdist carr
      = .ok raw) :
    ∀ r ∈ sectionResultsOfRun c api sdist sarr,
      (r.Error.isSome = true → memKey raw.Pages r.SectionID = false) ∧
      (r.Error = none → mapLookup raw.Pages r.SectionID = some r.Pages) := by
  intro r hr
  cases hst : stage1 c api with
  | fatal e => simp [sectionResultsOfRun, hst] at hr
  | early raw0 => simp [sectionResultsOfRun, hst] at hr
  | proceed nbs grouped jobs =>
    simp only [sectionResultsOfRun, hst] at hr
    have hrp : r ∈ runSectionPool api (sdist jobs) := harr _ r hr
    have hraw : raw.Pages =
        (collectSectionResults (sarr (runSectionPool api (sdist jobs)))
          emptySectionCollect).pages := by
      have hf := fetch_ok_proceed c api config sdist sarr cdist carr nbs grouped jobs hst
      rw [hf] at hfetch
      have hr2 : stage2 api cdist carr nbs grouped
          (sarr (runSectionPool api (sdist jobs))) = raw := by
        exact Except.ok.inj hfetch
      rw [← hr2, stage2_Pages]
    constructor
    · intro hE
      rw [hraw, Bool.eq_false_iff]
      intro hmem
      rcases (collectSection_memKey_iff r.SectionID _ _).mp hmem with h0 | ⟨r', hr', hE', hsid'⟩
      · simp [emptySectionCollect] at h0
      · have hr'p : r' ∈ runSectionPool api (sdist jobs) := harr _ r' hr'
        rcases runSectionPool_shape api _ r' hr'p with hc | ⟨w, hw, job', hj', rfl⟩
        · rw [hc] at hE'
          simp [cancelSectionResult] at hE'
        · rcases processSectionJob_success_shape api job' hE' with ⟨v, hv, heq, hne⟩
          rw [heq] at hsid'
          simp only at hsid'
          rcases runSectionPool_shape api _ r hrp with hcr | ⟨w2, hw2, job2, hj2, hr2⟩
          · rw [hcr] at hsid'
            exact hne (by simpa [cancelSectionResult] using hsid')
          · subst hr2
            rcases processSectionJob_error_shape api job2 hE with hid0 | ⟨e, hpe⟩
            · rw [hid0] at hsid'
              exact hne hsid'
            · rw [← hsid'] at hpe
              rw [hv] at hpe
              exact Except.noConfusion hpe
    · intro hE
      rcases runSectionPool_shape api _ r hrp with hc | ⟨w, hw, job, hj, hr2⟩
      · rw [hc] at hE
        simp [cancelSectionResult] at hE
      · subst hr2
        rcases processSectionJob_success_shape api job hE with ⟨v, hv, heq, hne⟩
        rw [hraw]
        have hall : ∀ r' ∈ sarr (runSectionPool api (sdist jobs)),
            r'.Error = none →
            r'.SectionID = (processSectionJob api job).SectionID →
            r'.Pages = (processSectionJob api job).Pages := by
          intro r' hr' hE' hsid'
          have hr'p : r' ∈ runSectionPool api (sdist jobs) := harr _ r' hr'
          rcases runSectionPool_shape api _ r' hr'p with hc' | ⟨w', hw', job', hj', rfl⟩
          · rw [hc'] at hE'
            simp [cancelSectionResult] at hE'
          · rcases processSectionJob_success_shape api job' hE' with ⟨v', hv', heq', hne'⟩
            rw [heq', heq] at hsid' ⊢
            simp only at hsid' ⊢
            rw [hsid'] at hv'
            rw [hv] at hv'
            rw [Except.ok.inj hv']
        have hlook := collectSection_lookup_const (processSectionJob api job).SectionID
          (processSectionJob api job).Pages (sarr (runSectionPool api (sdist jobs)))
          emptySectionCollect hall
        rw [hlook]
        have hany : (sarr (runSectionPool api (sdist jobs))).any
            (fun r' => r'.Error.isNone &&
              (r'.SectionID == (processSectionJob api job).SectionID)) = true :=
          List.any_eq_true.mpr ⟨_, hr, by simp [hE]⟩
        rw [if_pos hany]

/-- An API with one notebook and two sections, where the page-list call for
`"s2"` fails while the one for `"s1"` succeeds. -/
def apiC5 : GraphAPI :=
  { notebooksGet := .ok (some [nbX])
    sectionsGet := .ok (some [secX, secY])
    pagesGet := fun sid => if sid == "s1" then .ok (some [pgX]) else .error (.api "boom")
    contentGet := fun pid => if pid == "p1" then .ok "<p>hi</p>" else .error (.api "boom") }

/-- The snapshot the `apiC5` run produces. -/
def rawC5 : OneNoteRawData :=
  { Notebooks := [nbX]
    Sections := [("nb1", [secX, secY])]
    Pages := [("s1", [pgX])]
    Content := [("p1", "<p>hi</p>")] }

/-- The successful result for section `"s1"` in the `apiC5` run. -/
def resS1 : SectionResult := { SectionID := "s1", Pages := [pgX], Error := none }

/-- The failed result for section `"s2"` in the `apiC5` run. -/
def resS2 : SectionResult :=
  { SectionID := "s2", Pages := []
    Error := some (GoErr.fetchPagesFailed "T" (GoErr.api "boom")) }

/-- Witness for C5 at the concrete `apiC5` run: section `"s2"`, whose
page-list call failed, is absent from `Pages`; its sibling `"s1"` is present
with its fetched page list. -/
theorem C5_witness :
    memKey rawC5.Pages resS2.SectionID = false ∧
    mapLookup rawC5.Pages resS1.SectionID = some resS1.Pages := by
  have H := C5_failed_section_absent cDelegated apiC5 cfgOne oneWorkerS id
    oneWorkerC id rawC5 (fun _ _ h => h) rfl
  exact ⟨(H resS2 (by decide)).1 rfl, (H resS1 (by decide)).2 rfl⟩

/-!
C9.  Every key ever present in the snapshot maps corresponds to a job that
was actually dispatched; no placeholder entries exist.
-/

theorem stage1AfterNotebooks_early_empty (api : GraphAPI)
    (resp : Except GoErr (Option (List Notebook))) (raw0 : OneNoteRawData)
    (h : stage1AfterNotebooks api resp = .early raw0) :
    raw0.Pages = [] ∧ raw0.Content = [] := by
  cases resp with
  | error e => simp [stage1AfterNotebooks] at h
  | ok v =>
    cases v with
    | none =>
      simp [stage1AfterNotebooks] at h
      rw [← h]
      simp [emptyRaw]
    | some nbs =>
      cases hsec : api.sectionsGet with
      | error e =>
        simp [stage1AfterNotebooks, hsec] at h
        rw [← h]
        simp [emptyRaw]
      | ok s =>
        cases s with
        | none =>
          simp [stage1AfterNotebooks, hsec] at h
          rw [← h]
          simp [emptyRaw]
        | some secs =>
          simp only [stage1AfterNotebooks, hsec] at h
          split at h
          · rw [← Stage1Out.early.inj h]
            exact ⟨rfl, rfl⟩
          · exact Stage1Out.noConfusion h

theorem stage1_early_empty (c : ClientCfg) (api : GraphAPI)
    (raw0 : OneNoteRawData) (h : stage1 c api = .early raw0) :
    raw0.Pages = [] ∧ raw0.Content = [] := by
  unfold stage1 at h
  split at h
  · exact stage1AfterNotebooks_early_empty api _ raw0 h
  · split at h
    · exact Stage1Out.noConfusion h
    · exact stage1AfterNotebooks_early_empty api _ raw0 h

theorem stage2_Content (api : GraphAPI)
    (cdist : List ContentJob → PoolSchedule ContentJob)
    (carr : List ContentResult → List ContentResult)
    (nbs : List Notebook) (grouped : List (String × List OnenoteSection))
    (sres : List SectionResult) :
    (stage2 api cdist carr nbs grouped sres).Content =
      (if (contentJobsOf (collectSectionResults sres emptySectionCollect).pages
            (collectSectionResults sres emptySectionCollect).totalPages).isEmpty
       then []
       else collectContentResults
         (carr (runContentPool api (cdist (contentJobsOf
           (collectSectionResults sres emptySectionCollect).pages
           (collectSectionResults sres emptySectionCollect).totalPages)))) []) := by
  by_cases hc : (contentJobsOf (collectSectionResults sres emptySectionCollect).pages
      (collectSectionResults sres emptySectionCollect).totalPages).isEmpty = true
  · simp [stage2, hc]
  · simp [stage2, hc]

theorem sectionKey_from_results (api : GraphAPI) (ws : PoolSchedule SectionJob)
    (jobs : List SectionJob) (hsd : ∀ w ∈ ws, ∀ j ∈ w.2, j ∈ jobs)
    (rs : List SectionResult) (hrs : ∀ r ∈ rs, r ∈ runSectionPool api ws)
    (sid : String)
    (hmem : memKey (collectSectionResults rs emptySectionCollect).pages sid = true) :
    ∃ job ∈ jobs, getStringValue job.Section.id = sid := by
  rcases (collectSection_memKey_iff sid rs emptySectionCollect).mp hmem with h0 | ⟨r, hr, hE, hsid⟩
  · simp [emptySectionCollect] at h0
  · have hrp := hrs r hr
    rcases runSectionPool_shape api _ r hrp with hc | ⟨w, hw, job, hj, rfl⟩
    · rw [hc] at hE
      simp [cancelSectionResult] at hE
    · rcases processSectionJob_success_shape api job hE with ⟨v, hv, heq, hne⟩
      refine ⟨job, hsd w hw job hj, ?_⟩
      rw [heq] at hsid
      exact hsid

theorem contentKey_from_results (api : GraphAPI) (ws : PoolSchedule ContentJob)
    (jobs : List ContentJob) (hcd : ∀ w ∈ ws, ∀ j ∈ w.2, j ∈ jobs)
    (rs : List ContentResult) (hrs : ∀ r ∈ rs, r ∈ runContentPool api ws)
    (pid : String)
    (hmem : memKey (collectContentResults rs []) pid = true) :
    ∃ job ∈ jobs, job.PageID = pid := by
  rcases (collectContent_memKey_iff pid rs []).mp hmem with h0 | ⟨r, hr, hE, hpid⟩
  · simp at h0
  · have hrp := hrs r hr
    rcases runContentPool_shape api _ r hrp with hc | ⟨w, hw, job, hj, rfl⟩
    · rw [hc] at hE
      simp [cancelContentResult] at hE
    · refine ⟨job, hcd w hw job hj, ?_⟩
      rw [← processContentJob_pageID api job]
      exact hpid

/-- C9: throughout every run — at every prefix of the arrival order and in
the final snapshot — every key of the `Pages` map is the section id of a
dispatched `SectionJob` and every key of the `Content` map is the page id of
a dispatched `ContentJob`; the maps never hold entries for undispatched
work. -/
theorem C9_keys_are_dispatched (c : ClientCfg) (api : GraphAPI)
    (config : ConcurrencyConfig)
    (sdist : List SectionJob → PoolSchedule SectionJob)
    (sarr : List SectionResult → List SectionResult)
    (cdist : List ContentJob → PoolSchedule ContentJob)
    (carr : List ContentResult → List ContentResult)
    (raw : OneNoteRawData)
    (hsd : ∀ (js : List SectionJob), ∀ w ∈ sdist js, ∀ j ∈ w.2, j ∈ js)
    (hsa : ∀ (rs : List SectionResult) (r : SectionResult), r ∈ sarr rs → r ∈ rs)
    (hcd : ∀ (js : List ContentJob), ∀ w ∈ cdist js, ∀ j ∈ w.2, j ∈ js)
    (hca : ∀ (rs : List ContentResult) (r : ContentResult), r ∈ carr rs → r ∈ rs)
    (hfetch : fetchOneNoteRawDataConcurrentWithConfig c api config sdist sarr cdist carr
      = .ok raw) :
    (∀ (n : Nat) (sid : String),
      memKey (collectSectionResults
        ((sectionResultsOfRun c api sdist sarr).take n) emptySectionCollect).pages
        sid = true →
      ∃ job ∈ sectionJobsOfRun c api, getStringValue job.Section.id = sid) ∧
    (∀ sid : String, memKey raw.Pages sid = true →
      ∃ job ∈ sectionJobsOfRun c api, getStringValue job.Section.id = sid) ∧
    (∀ (n : Nat) (pid : String),
      memKey (collectContentResults
        ((contentResultsOfRun c api sdist sarr cdist carr).take n) []) pid = true →
      ∃ job ∈ contentJobsOfRun c api sdist sarr, job.PageID = pid) ∧
    (∀ pid : String, memKey raw.Content pid = true →
      ∃ job ∈ contentJobsOfRun c api sdist sarr, job.PageID = pid) := by
  cases hst : stage1 c api with
  | fatal e => simp [fetchOneNoteRawDataConcurrentWithConfig, hst] at hfetch
  | early raw0 =>
    have hraw : raw0 = raw := by
      simpa [fetchOneNoteRawDataConcurrentWithConfig, hst] using hfetch
    have hempty := stage1_early_empty c api raw0 hst
    refine ⟨?_, ?_, ?_, ?_⟩
    · intro n sid hmem
      simp [sectionResultsOfRun, hst, collectSectionResults,
        emptySectionCollect] at hmem
    · intro sid hmem
      rw [← hraw, hempty.1] at hmem
      simp at hmem
    · intro n pid hmem
      simp [contentResultsOfRun, contentJobsOfRun, hst,
        collectContentResults] at hmem
    · intro pid hmem
      rw [← hraw, hempty.2] at hmem
      simp at hmem
  | proceed nbs grouped jobs =>
    have hf := fetch_ok_proceed c api config sdist sarr cdist carr nbs grouped jobs hst
    rw [hf] at hfetch
    have hraw : stage2 api cdist carr nbs grouped
        (sarr (runSectionPool api (sdist jobs))) = raw := Except.ok.inj hfetch
    have hsrs : ∀ r ∈ sarr (runSectionPool api (sdist jobs)),
        r ∈ runSectionPool api (sdist jobs) := fun r hr => hsa _ r hr
    have hjobs : sectionJobsOfRun c api = jobs := by
      simp [sectionJobsOfRun, hst]
    have hsresrun : sectionResultsOfRun c api sdist sarr =
        sarr (runSectionPool api (sdist jobs)) := by
      simp [sectionResultsOfRun, hst]
    have hcjobsrun : contentJobsOfRun c api sdist sarr =
        contentJobsOf
          (collectSectionResults (sarr (runSectionPool api (sdist jobs)))
            emptySectionCollect).pages
          (collectSectionResults (sarr (runSectionPool api (sdist jobs)))
            emptySectionCollect).totalPages := by
      simp [contentJobsOfRun, sectionResultsOfRun, hst]
    refine ⟨?_, ?_, ?_, ?_⟩
    · intro n sid hmem
      rw [hjobs]
      rw [hsresrun] at hmem
      exact sectionKey_from_results api (sdist jobs) jobs (hsd jobs)
        ((sarr (runSectionPool api (sdist jobs))).take n)
        (fun r hr => hsrs r (List.mem_of_mem_take hr)) sid hmem
    · intro sid hmem
      rw [hjobs]
      rw [← hraw, stage2_Pages] at hmem
      exact sectionKey_from_results api (sdist jobs) jobs (hsd jobs)
        (sarr (runSectionPool api (sdist jobs))) hsrs sid hmem
    · intro n pid hmem
      by_cases hcj : (contentJobsOfRun c api sdist sarr).isEmpty = true
      · simp [contentResultsOfRun, hcj, collectContentResults] at hmem
      · have hcres : contentResultsOfRun c api sdist sarr cdist carr =
            carr (runContentPool api (cdist (contentJobsOfRun c api sdist sarr))) := by
          simp [contentResultsOfRun, hcj]
        rw [hcres] at hmem
        exact contentKey_from_results api
          (cdist (contentJobsOfRun c api sdist sarr))
          (contentJobsOfRun c api sdist sarr)
          (hcd _)
          ((carr (runContentPool api (cdist (contentJobsOfRun c api sdist sarr)))).take n)
          (fun r hr => hca _ r (List.mem_of_mem_take hr)) pid hmem
    · intro pid hmem
      rw [← hraw, stage2_Content, ← hcjobsrun] at hmem
      by_cases hcj : (contentJobsOfRun c api sdist sarr).isEmpty = true
      · rw [if_pos hcj] at hmem
        simp at hmem
      · rw [if_neg hcj] at hmem
        exact contentKey_from_results api
          (cdist (contentJobsOfRun c api sdist sarr))
          (contentJobsOfRun c api sdist sarr)
          (hcd _)
          (carr (runContentPool api (cdist (contentJobsOfRun c api sdist sarr))))
          (fun r hr => hca _ r hr) pid hmem

/-- Witness for C9 at the concrete `apiC5` run. -/
theorem C9_witness :
    (∀ (n : Nat) (sid : String),
      memKey (collectSectionResults
        ((sectionResultsOfRun cDelegated apiC5 oneWorkerS id).take n)
        emptySectionCollect).pages sid = true →
      ∃ job ∈ sectionJobsOfRun cDelegated apiC5,
        getStringValue job.Section.id = sid) ∧
    (∀ sid : String, memKey rawC5.Pages sid = true →
      ∃ job ∈ sectionJobsOfRun cDelegated apiC5,
        getStringValue job.Section.id = sid) ∧
    (∀ (n : Nat) (pid : String),
      memKey (collectContentResults
        ((contentResultsOfRun cDelegated apiC5 oneWorkerS id oneWorkerC id).take n)
        []) pid = true →
      ∃ job ∈ contentJobsOfRun cDelegated apiC5 oneWorkerS id, job.PageID = pid) ∧
    (∀ pid : String, memKey rawC5.Content pid = true →
      ∃ job ∈ contentJobsOfRun cDelegated apiC5 oneWorkerS id, job.PageID = pid) :=
  C9_keys_are_dispatched cDelegated apiC5 cfgOne oneWorkerS id oneWorkerC id rawC5
    (fun js w hw j hj => by
      simp only [oneWorkerS, List.mem_singleton] at hw
      subst hw
      exact hj)
    (fun _ _ h => h)
    (fun js w hw j hj => by
      simp only [oneWorkerC, List.mem_singleton] at hw
      subst hw
      exact hj)
    (fun _ _ h => h)
    rfl

/-!
C6.  Document assembly emits only pages whose content is present and whose
decode succeeds, skipping every other node while continuing with the rest.
-/

/-- Whether a page under a given notebook and section would be assembled:
its content is present in the snapshot and the decode succeeds.  (This is
the spec's description of an assemblable node, stated independently of the
assembly loop for comparison with it.) -/
def pageAssembles (conv : Converters) (now : Nat) (raw : OneNoteRawData)
    (notebook : Notebook) (sec : OnenoteSection) (page : Page) : Bool :=
  match mapLookup raw.Content (getStringValue page.id) with
  | none => false
  | some content =>
    match processPageContent conv now page notebook sec content with
    | .error _ => false
    | .ok _ => true

/-- The number of assemblable nodes reachable in the snapshot: notebooks
with a `Sections` entry, their sections with a `Pages` entry, and those
sections' pages that assemble. -/
def assemblableCount (conv : Converters) (now : Nat) (raw : OneNoteRawData) : Nat :=
  (raw.Notebooks.map (fun nb =>
    match mapLookup raw.Sections (getStringValue nb.id) with
    | none => 0
    | some sections =>
      (sections.map (fun sec =>
        match mapLookup raw.Pages (getStringValue sec.id) with
        | none => 0
        | some pages =>
          (pages.filter (pageAssembles conv now raw nb sec)).length)).sum)).sum

theorem processPageContent_ID (conv : Converters) (now : Nat) (page : Page)
    (notebook : Notebook) (sec : OnenoteSection) (content : String)
    (doc : Document) (h : processPageContent conv now page notebook sec content = .ok doc) :
    doc.ID = getStringValue page.id := by
  unfold processPageContent at h
  cases hb : BytesToJSON conv content with
  | error e => rw [hb] at h; exact Except.noConfusion h
  | ok m =>
    rw [hb] at h
    injection h with hd
    rw [← hd]

theorem assemblePage_length (conv : Converters) (now : Nat) (raw : OneNoteRawData)
    (nb : Notebook) (sec : OnenoteSection) (acc : DocumentCollection) (page : Page) :
    ((assemblePage conv now raw nb sec acc page).Documents).length =
      acc.Documents.length +
        (if pageAssembles conv now raw nb sec page then 1 else 0) := by
  cases hc : mapLookup raw.Content (getStringValue page.id) with
  | none => simp [assemblePage, pageAssembles, hc]
  | some content =>
    cases hp : processPageContent conv now page nb sec content with
    | error e => simp [assemblePage, pageAssembles, hc, hp]
    | ok doc => simp [assemblePage, pageAssembles, hc, hp, AddDocument]

theorem assemblePage_mem (conv : Converters) (now : Nat) (raw : OneNoteRawData)
    (nb : Notebook) (sec : OnenoteSection) (acc : DocumentCollection) (page : Page)
    (d : Document) (hd : d ∈ (assemblePage conv now raw nb sec acc page).Documents) :
    d ∈ acc.Documents ∨ memKey raw.Content d.ID = true := by
  cases hc : mapLookup raw.Content (getStringValue page.id) with
  | none =>
    simp only [assemblePage, hc] at hd
    exact Or.inl hd
  | some content =>
    simp only [assemblePage, hc] at hd
    cases hp : processPageContent conv now page nb sec content with
    | error e =>
      rw [hp] at hd
      exact Or.inl hd
    | ok doc =>
      rw [hp] at hd
      simp only [AddDocument, List.mem_append, List.mem_singleton] at hd
      rcases hd with hd | rfl
      · exact Or.inl hd
      · right
        rw [processPageContent_ID conv now page nb sec content d hp]
        simp [memKey, hc]

theorem assemblePages_foldl_length (conv : Converters) (now : Nat)
    (raw : OneNoteRawData) (nb : Notebook) (sec : OnenoteSection) :
    ∀ (pages : List Page) (acc : DocumentCollection),
      ((pages.foldl (assemblePage conv now raw nb sec) acc).Documents).length =
        acc.Documents.length +
          (pages.filter (pageAssembles conv now raw nb sec)).length := by
  intro pages
  induction pages with
  | nil => intro acc; simp
  | cons p rest ih =>
    intro acc
    rw [List.foldl_cons, ih, assemblePage_length, List.filter_cons]
    by_cases hp : pageAssembles conv now raw nb sec p = true
    · simp [hp]
      omega
    · simp only [Bool.not_eq_true] at hp
      simp [hp]

theorem assemblePages_foldl_mem (conv : Converters) (now : Nat)
    (raw : OneNoteRawData) (nb : Notebook) (sec : OnenoteSection) :
    ∀ (pages : List Page) (acc : DocumentCollection) (d : Document),
      d ∈ ((pages.foldl (assemblePage conv now raw nb sec) acc).Documents) →
      d ∈ acc.Documents ∨ memKey raw.Content d.ID = true := by
  intro pages
  induction pages with
  | nil => intro acc d hd; exact Or.inl hd
  | cons p rest ih =>
    intro acc d hd
    rw [List.foldl_cons] at hd
    rcases ih _ d hd with hd' | hd'
    · exact assemblePage_mem conv now raw nb sec acc p d hd'
    · exact Or.inr hd'

theorem assembleSection_length (conv : Converters) (now : Nat)
    (raw : OneNoteRawData) (nb : Notebook) (acc : DocumentCollection)
    (sec : OnenoteSection) :
    ((assembleSection conv now raw nb acc sec).Documents).length =
      acc.Documents.length +
        (match mapLookup raw.Pages (getStringValue sec.id) with
         | none => 0
         | some pages => (pages.filter (pageAssembles conv now raw nb sec)).length) := by
  cases hp : mapLookup raw.Pages (getStringValue sec.id) with
  | none => simp [assembleSection, hp]
  | some pages => simp [assembleSection, hp, assemblePages_foldl_length]

theorem assembleSection_mem (conv : Converters) (now : Nat)
    (raw : OneNoteRawData) (nb : Notebook) (acc : DocumentCollection)
    (sec : OnenoteSection) (d : Document)
    (hd : d ∈ (assembleSection conv now raw nb acc sec).Documents) :
    d ∈ acc.Documents ∨ memKey raw.Content d.ID = true := by
  cases hp : mapLookup raw.Pages (getStringValue sec.id) with
  | none =>
    rw [assembleSection, hp] at hd
    exact Or.inl hd
  | some pages =>
    rw [assembleSection, hp] at hd
    exact assemblePages_foldl_mem conv now raw nb sec pages acc d hd

theorem assembleSections_foldl_length (conv : Converters) (now : Nat)
    (raw : OneNoteRawData) (nb : Notebook) :
    ∀ (sections : List OnenoteSection) (acc : DocumentCollection),
      ((sections.foldl (assembleSection conv now raw nb) acc).Documents).length =
        acc.Documents.length +
          (sections.map (fun sec =>
            match mapLookup raw.Pages (getStringValue sec.id) with
            | none => 0
            | some pages =>
              (pages.filter (pageAssembles conv now raw nb sec)).length)).sum := by
  intro sections
  induction sections with
  | nil => intro acc; simp
  | cons s rest ih =>
    intro acc
    rw [List.foldl_cons, ih, assembleSection_length, List.map_cons, List.sum_cons]
    omega

theorem assembleSections_foldl_mem (conv : Converters) (now : Nat)
    (raw : OneNoteRawData) (nb : Notebook) :
    ∀ (sections : List OnenoteSection) (acc : DocumentCollection) (d : Document),
      d ∈ ((sections.foldl (assembleSection conv now raw nb) acc).Documents) →
      d ∈ acc.Documents ∨ memKey raw.Content d.ID = true := by
  intro sections
  induction sections with
  | nil => intro acc d hd; exact Or.inl hd
  | cons s rest ih =>
    intro acc d hd
    rw [List.foldl_cons] at hd
    rcases ih _ d hd with hd' | hd'
    · exact assembleSection_mem conv now raw nb acc s d hd'
    · exact Or.inr hd'

theorem assembleNotebook_length (conv : Converters) (now : Nat)
    (raw : OneNoteRawData) (coll : DocumentCollection) (nb : Notebook) :
    ((assembleNotebook conv now raw coll nb).Documents).length =
      coll.Documents.length +
        (match mapLookup raw.Sections (getStringValue nb.id) with
         | none => 0
         | some sections =>
           (sections.map (fun sec =>
             match mapLookup raw.Pages (getStringValue sec.id) with
             | none => 0
             | some pages =>
               (pages.filter (pageAssembles conv now raw nb sec)).length)).sum) := by
  cases hs : mapLookup raw.Sections (getStringValue nb.id) with
  | none => simp [assembleNotebook, hs]
  | some sections => simp [assembleNotebook, hs, assembleSections_foldl_length]

theorem assembleNotebook_mem (conv : Converters) (now : Nat)
    (raw : OneNoteRawData) (coll : DocumentCollection) (nb : Notebook)
    (d : Document) (hd : d ∈ (assembleNotebook conv now raw coll nb).Documents) :
    d ∈ coll.Documents ∨ memKey raw.Content d.ID = true := by
  cases hs : mapLookup raw.Sections (getStringValue nb.id) with
  | none =>
    rw [assembleNotebook, hs] at hd
    exact Or.inl hd
  | some sections =>
    rw [assembleNotebook, hs] at hd
    exact assembleSections_foldl_mem conv now raw nb sections coll d hd

theorem combineLoop_foldl_length (conv : Converters) (now : Nat)
    (raw : OneNoteRawData) :
    ∀ (nbs : List Notebook) (coll : DocumentCollection),
      ((nbs.foldl (assembleNotebook conv now raw) coll).Documents).length =
        coll.Documents.length +
          (nbs.map (fun nb =>
            match mapLookup raw.Sections (getStringValue nb.id) with
            | none => 0
            | some sections =>
              (sections.map (fun sec =>
                match mapLookup raw.Pages (getStringValue sec.id) with
                | none => 0
                | some pages =>
                  (pages.filter (pageAssembles conv now raw nb sec)).length)).sum)).sum := by
  intro nbs
  induction nbs with
  | nil => intro coll; simp
  | cons nb rest ih =>
    intro coll
    rw [List.foldl_cons, ih, assembleNotebook_length, List.map_cons, List.sum_cons]
    omega

theorem combineLoop_foldl_mem (conv : Converters) (now : Nat)
    (raw : OneNoteRawData) :
    ∀ (nbs : List Notebook) (coll : DocumentCollection) (d : Document),
      d ∈ ((nbs.foldl (assembleNotebook conv now raw) coll).Documents) →
      d ∈ coll.Documents ∨ memKey raw.Content d.ID = true := by
  intro nbs
  induction nbs with
  | nil => intro coll d hd; exact Or.inl hd
  | cons nb rest ih =>
    intro coll d hd
    rw [List.foldl_cons] at hd
    rcases ih _ d hd with hd' | hd'
    · exact assembleNotebook_mem conv now raw coll nb d hd'
    · exact Or.inr hd'

/-- C6: the assembly loop of `combineOneNoteData` never emits a document
for a page whose id is absent from the snapshot's `Content` map, and never
aborts on a missing or undecodable node: the documents produced are exactly
as many as the reachable pages whose content is present and decodes — every
notebook without a `Sections` entry, section without a `Pages` entry, page
without a `Content` entry, or page whose decode fails is skipped while all
remaining nodes are still assembled. -/
theorem C6_assembly_skips_and_continues (conv : Converters) (now : Nat)
    (raw : OneNoteRawData) :
    (∀ doc ∈ (combineLoop conv now raw (NewDocumentCollection "OneNote" now)).Documents,
      memKey raw.Content doc.ID = true) ∧
    ((combineLoop conv now raw (NewDocumentCollection "OneNote" now)).Documents).length
      = assemblableCount conv now raw := by
  constructor
  · intro doc hdoc
    rcases combineLoop_foldl_mem conv now raw raw.Notebooks
        (NewDocumentCollection "OneNote" now) doc hdoc with h | h
    · simp [NewDocumentCollection] at h
    · exact h
  · rw [combineLoop, combineLoop_foldl_length]
    simp [NewDocumentCollection, assemblableCount]

/-- A converter stub standing in for the external per-format converters:
every format returns its input as the extracted text. -/
def convStub : Converters :=
  { isHTML := fun _ => false
    isXML := fun _ => false
    isMarkdown := fun _ => false
    isJSON := fun _ => false
    oneNoteHTMLToJSON := fun s => .ok [("content", .str s)]
    xmlToJSON := fun s => .ok [("content", .str s)]
    markdownToJSON := fun s => .ok [("content", .str s)]
    parseExistingJSON := fun s => .ok [("content", .str s)]
    textToJSON := fun s => .ok [("content", .str s)] }

/-- Witness for C6 at the concrete `rawC5` snapshot. -/
theorem C6_witness :
    (∀ doc ∈ (combineLoop convStub 0 rawC5 (NewDocumentCollection "OneNote" 0)).Documents,
      memKey rawC5.Content doc.ID = true) ∧
    ((combineLoop convStub 0 rawC5 (NewDocumentCollection "OneNote" 0)).Documents).length
      = assemblableCount convStub 0 rawC5 :=
  C6_assembly_skips_and_continues convStub 0 rawC5

/-!
C7.  The version hash is the SHA-256 of the decoded text, tagged with the
algorithm name; empty decoded text yields the digest of the empty byte
sequence with no special case.
-/

/-- The SHA-256 digest of the empty byte sequence, hex-encoded — the
well-known `e3b0c442...` constant. -/
theorem sha256Tag_empty :
    sha256Tag "" =
      "sha256:e3b0c44298fc1c149afbf4c8996fb92427ae41e4649b934ca495991b7852b855" := by
  decide

/-- C7: every document `processPageContent` builds carries
`VersionHash = "sha256:" ++ hex(SHA-256(UTF-8 bytes of the decoded text)))`,
where the decoded text is the `"content"` string the content decoder
(`BytesToJSON`) returned for the page's raw bytes — the hash is over the
decoded text, not the raw bytes — and empty decoded text hashes to the
digest of the empty byte sequence with no special case. -/
theorem C7_version_hash (conv : Converters) (now : Nat) (page : Page)
    (notebook : Notebook) (sec : OnenoteSection) (content : String)
    (doc : Document)
    (h : processPageContent conv now page notebook sec content = .ok doc) :
    ∃ m, BytesToJSON conv content = .ok m ∧
      doc.Content = jsonContentString m ∧
      doc.VersionHash =
        "sha256:" ++ bytesToHex (sha256Sum (utf8Bytes (jsonContentString m))) ∧
      (jsonContentString m = "" →
        doc.VersionHash =
          "sha256:e3b0c44298fc1c149afbf4c8996fb92427ae41e4649b934ca495991b7852b855") := by
  unfold processPageContent at h
  cases hb : BytesToJSON conv content with
  | error e => rw [hb] at h; exact Except.noConfusion h
  | ok m =>
    rw [hb] at h
    injection h with hd
    refine ⟨m, rfl, ?_, ?_, ?_⟩
    · rw [← hd]
    · rw [← hd]
      simp only [sha256Tag]
    · intro hempty
      rw [← hd]
      show sha256Tag (jsonContentString m) = _
      rw [hempty]
      exact sha256Tag_empty

/-- The document assembled from `pgX` with empty content bytes. -/
def docC7 : Document :=
  { ID := "p1"
    Source := "onenote"
    Type' := "page"
    Title := "P"
    Location := "OneNote/NB/S"
    CreatedAt := 5
    FetchedAt := 0
    VersionHash :=
      "sha256:e3b0c44298fc1c149afbf4c8996fb92427ae41e4649b934ca495991b7852b855"
    Language := "en"
    TextChunkingStrategy := "page_based"
    Content := ""
    Metadata :=
      [("notebook_id", .str "nb1"), ("notebook_name", .str "NB"),
       ("section_id", .str "s1"), ("section_name", .str "S"),
       ("page_id", .str "p1"), ("content_format", .str "html"),
       ("has_images", .null), ("word_count", .null),
       ("character_count", .null)] }

/-- Witness for C7: the empty-byte page decodes to empty text and hashes to
the empty-input digest. -/
theorem C7_witness :
    ∃ m, BytesToJSON convStub "" = .ok m ∧
      docC7.Content = jsonContentString m ∧
      docC7.VersionHash =
        "sha256:" ++ bytesToHex (sha256Sum (utf8Bytes (jsonContentString m))) ∧
      (jsonContentString m = "" →
        docC7.VersionHash =
          "sha256:e3b0c44298fc1c149afbf4c8996fb92427ae41e4649b934ca495991b7852b855") :=
  C7_version_hash convStub 0 pgX nbX secX "" docC7 rfl

end DataExtraction
